import Mathlib

/-!
Verification of the CRAM container/codec core of the `noodles` repository.

The Rust sources are embedded shallowly: byte streams are `List Nat` (each
element a byte value `< 256`), fallible readers return
`Except Err (α × List Nat)` (the second component is the unconsumed rest),
and machine integers are modelled as `Nat`/`Int` with explicit reductions
modulo `2^32`/`2^64` where the source wraps.

Functions are translated from:
  * `noodles-cram/src/io/reader/num.rs`, `num/vlq.rs`
  * `noodles-cram/src/io/writer/num.rs`, `num/vlq.rs`
  * `noodles-cram/src/io/reader/container/header.rs`
  * `noodles-cram/src/io/writer/container.rs`
  * `noodles-cram/src/io/reader/container/compression_header/encoding.rs`
  * `noodles-cram/src/io/reader/collections.rs`
  * `noodles-cram/src/container/compression_header/data_series_encodings.rs`
  * `noodles-cram/src/container/compression_header/encoding/codec/integer.rs`
  * `noodles-cram/src/codecs/fqzcomp/encode.rs`
  * `noodles-bam/src/reader/query.rs`
  * `noodles-cram/src/file_definition/version.rs`
A few leaves of the crate (ITF8/LTF8 codecs, the bit reader/writer, the
reference-sequence context, the data-series content-id table, CRC32) are not
part of the source tree; those definitions are modelled from the spec and are
marked as such in their doc comments.
-/

set_option maxRecDepth 100000

deriving instance DecidableEq for Except

namespace Noodles

/-- Rust `std::io` error kinds distinguished by the embedded code. -/
inductive Err
  | unexpectedEof
  | invalidData
  | invalidInput
  | unsupported
  deriving DecidableEq, Repr

/-- A byte stream: a list of byte values (each `< 256`). -/
abbrev Bytes := List Nat

/-- CRAM file definition version (`file_definition/version.rs`), a
`(major, minor)` pair ordered lexicographically. -/
structure Version where
  major : Nat
  minor : Nat
  deriving DecidableEq, Repr

def Version.V2_0 : Version := ⟨2, 0⟩
def Version.V2_1 : Version := ⟨2, 1⟩
def Version.V3_0 : Version := ⟨3, 0⟩
def Version.V3_1 : Version := ⟨3, 1⟩
def Version.V4_0 : Version := ⟨4, 0⟩

/-- Lexicographic `≤` on versions (`Ord` impl in `version.rs`). -/
def Version.le (a b : Version) : Bool :=
  a.major < b.major || (a.major == b.major && a.minor ≤ b.minor)

/-- Lexicographic `<` on versions. -/
def Version.ltV (a b : Version) : Bool :=
  a.major < b.major || (a.major == b.major && a.minor < b.minor)

/-- Rust `Version::has_crc32`: `true` iff the version is `≥ 3.0`. -/
def Version.has_crc32 (v : Version) : Bool := Version.le Version.V3_0 v

/-- Rust `Version::uses_vlq`: `true` iff the version is `≥ 4.0`. -/
def Version.uses_vlq (v : Version) : Bool := Version.le Version.V4_0 v

/-- Rust `Version::has_64bit_positions`: `true` iff the version is `≥ 4.0`. -/
def Version.has_64bit_positions (v : Version) : Bool := Version.le Version.V4_0 v

/-! ## Byte-level primitives (`io/reader/num.rs`) -/

/-- Rust `read_u8`: one byte or `UnexpectedEof`. -/
def read_u8 : Bytes → Except Err (Nat × Bytes)
  | [] => .error .unexpectedEof
  | b :: rest => .ok (b, rest)

/-- Little-endian `u32` from four bytes (`read_u32_le`). -/
def read_u32_le : Bytes → Except Err (Nat × Bytes)
  | b0 :: b1 :: b2 :: b3 :: rest =>
      .ok (b0 + b1 * 2 ^ 8 + b2 * 2 ^ 16 + b3 * 2 ^ 24, rest)
  | _ => .error .unexpectedEof

/-- Little-endian `i32` from four bytes (`read_i32_le`); two's complement. -/
def read_i32_le : Bytes → Except Err (Int × Bytes)
  | b0 :: b1 :: b2 :: b3 :: rest =>
      let n : Nat := b0 + b1 * 2 ^ 8 + b2 * 2 ^ 16 + b3 * 2 ^ 24
      .ok (if n < 2 ^ 31 then (n : Int) else (n : Int) - 2 ^ 32, rest)
  | _ => .error .unexpectedEof

/-! ## VLQ (`io/reader/num/vlq.rs`, `io/writer/num/vlq.rs`) -/

/-- Loop body of `read_uint7`: `n <<= 7; n |= b & 0x7f` on `u32`, failing with
`InvalidData` as soon as a sixth byte has been consumed. -/
def read_uint7_loop (n count : Nat) : Bytes → Except Err (Nat × Bytes)
  | [] => .error .unexpectedEof
  | b :: rest =>
      if count + 1 > 5 then .error .invalidData
      else
        let n' := (n * 2 ^ 7) % 2 ^ 32 + b % 2 ^ 7
        if b % 2 ^ 8 < 2 ^ 7 then .ok (n', rest)
        else read_uint7_loop n' (count + 1) rest

/-- Rust `read_uint7`: big-endian base-128 VLQ into a `u32`. -/
def read_uint7 (src : Bytes) : Except Err (Nat × Bytes) :=
  read_uint7_loop 0 0 src

/-- Loop body of `read_uint7_64` (at most 10 bytes, wrapping on `u64`). -/
def read_uint7_64_loop (n count : Nat) : Bytes → Except Err (Nat × Bytes)
  | [] => .error .unexpectedEof
  | b :: rest =>
      if count + 1 > 10 then .error .invalidData
      else
        let n' := (n * 2 ^ 7) % 2 ^ 64 + b % 2 ^ 7
        if b % 2 ^ 8 < 2 ^ 7 then .ok (n', rest)
        else read_uint7_64_loop n' (count + 1) rest

/-- Rust `read_uint7_64`: big-endian base-128 VLQ into a `u64`. -/
def read_uint7_64 (src : Bytes) : Except Err (Nat × Bytes) :=
  read_uint7_64_loop 0 0 src

/-- Rust `zigzag_decode_i32`: `(n >> 1) ^ -(n & 1)` on a `u32`. -/
def zigzag_decode_i32 (n : Nat) : Int :=
  if n % 2 = 1 then -(((n / 2 : Nat) : Int)) - 1 else ((n / 2 : Nat) : Int)

/-- Rust `zigzag_decode_i64`. -/
def zigzag_decode_i64 (n : Nat) : Int :=
  if n % 2 = 1 then -(((n / 2 : Nat) : Int)) - 1 else ((n / 2 : Nat) : Int)

/-- Rust `read_sint7`: `read_uint7` followed by zigzag decoding. -/
def read_sint7 (src : Bytes) : Except Err (Int × Bytes) := do
  let (n, rest) ← read_uint7 src
  .ok (zigzag_decode_i32 n, rest)

/-- Rust `read_sint7_64`. -/
def read_sint7_64 (src : Bytes) : Except Err (Int × Bytes) := do
  let (n, rest) ← read_uint7_64 src
  .ok (zigzag_decode_i64 n, rest)

/-! ## ITF8 / LTF8

The ITF8/LTF8 codec files (`io/reader/num/itf8.rs`, `ltf8.rs` and their writer
duals) are not part of the source tree; they are modelled from the spec here.
-/

/-- Modelled from the spec: the ITF8 reader (`io/reader/num/itf8.rs` is not in
the tree). "ITF8 stores 1–5 bytes; the number of leading 1-bits in byte 0
encodes the length, residual bits pack MSB-first." The byte layout is pinned
by the in-tree vectors: `e0 45 4f 46` decodes to `4542278` and
`ff ff ff ff 0f` decodes to `-1` (container-header tests and `EOF_V3`).
The assembled `u32` is bitcast to `i32`. -/
def read_itf8 (src : Bytes) : Except Err (Int × Bytes) := do
  let (b0, rest) ← read_u8 src
  let u32ToI32 : Nat → Int := fun n =>
    if n < 2 ^ 31 then (n : Int) else (n : Int) - 2 ^ 32
  if b0 % 256 < 0x80 then
    .ok (u32ToI32 (b0 % 0x80), rest)
  else if b0 % 256 < 0xc0 then do
    let (b1, rest) ← read_u8 rest
    .ok (u32ToI32 ((b0 % 0x40) * 2 ^ 8 + b1 % 256), rest)
  else if b0 % 256 < 0xe0 then do
    let (b1, rest) ← read_u8 rest
    let (b2, rest) ← read_u8 rest
    .ok (u32ToI32 ((b0 % 0x20) * 2 ^ 16 + (b1 % 256) * 2 ^ 8 + b2 % 256), rest)
  else if b0 % 256 < 0xf0 then do
    let (b1, rest) ← read_u8 rest
    let (b2, rest) ← read_u8 rest
    let (b3, rest) ← read_u8 rest
    .ok (u32ToI32 ((b0 % 0x10) * 2 ^ 24 + (b1 % 256) * 2 ^ 16 +
      (b2 % 256) * 2 ^ 8 + b3 % 256), rest)
  else do
    let (b1, rest) ← read_u8 rest
    let (b2, rest) ← read_u8 rest
    let (b3, rest) ← read_u8 rest
    let (b4, rest) ← read_u8 rest
    .ok (u32ToI32 ((b0 % 0x10) * 2 ^ 28 + (b1 % 256) * 2 ^ 20 +
      (b2 % 256) * 2 ^ 12 + (b3 % 256) * 2 ^ 4 + b4 % 0x10), rest)

/-- Helper for LTF8: assemble `k` further bytes big-endian onto `acc`. -/
def readBeBytes (acc : Nat) : Nat → Bytes → Except Err (Nat × Bytes)
  | 0, rest => .ok (acc, rest)
  | k + 1, src => do
      let (b, rest) ← read_u8 src
      readBeBytes (acc * 2 ^ 8 + b % 256) k rest

/-- Modelled from the spec: the LTF8 reader (`io/reader/num/ltf8.rs` is not in
the tree). "LTF8 is the 64-bit analog (1–9 bytes)": the count of leading
1-bits in byte 0 gives the number of extra bytes; the residual low bits of
byte 0 are the most significant bits of the value. The assembled `u64` is
bitcast to `i64`. -/
def read_ltf8 (src : Bytes) : Except Err (Int × Bytes) := do
  let (b0, rest) ← read_u8 src
  let b0 := b0 % 256
  let u64ToI64 : Nat → Int := fun n =>
    if n < 2 ^ 63 then (n : Int) else (n : Int) - 2 ^ 64
  let extra : Nat :=
    if b0 < 0x80 then 0 else if b0 < 0xc0 then 1 else if b0 < 0xe0 then 2
    else if b0 < 0xf0 then 3 else if b0 < 0xf8 then 4 else if b0 < 0xfc then 5
    else if b0 < 0xfe then 6 else if b0 < 0xff then 7 else 8
  let residual : Nat :=
    if b0 < 0x80 then b0 else if b0 < 0xc0 then b0 % 0x40
    else if b0 < 0xe0 then b0 % 0x20 else if b0 < 0xf0 then b0 % 0x10
    else if b0 < 0xf8 then b0 % 0x08 else if b0 < 0xfc then b0 % 0x04
    else if b0 < 0xfe then b0 % 0x02 else 0
  let (n, rest) ← readBeBytes residual extra rest
  .ok (u64ToI64 n, rest)

/-! ## Writer primitives (`io/writer/num.rs`, `num/vlq.rs`) -/

/-- Rust `write_u32_le`: four little-endian bytes of a `u32`. -/
def u32_le_bytes (n : Nat) : Bytes :=
  [n % 2 ^ 8, n / 2 ^ 8 % 2 ^ 8, n / 2 ^ 16 % 2 ^ 8, n / 2 ^ 24 % 2 ^ 8]

/-- Rust `write_i32_le`: four little-endian bytes of an `i32` (two's complement). -/
def i32_le_bytes (n : Int) : Bytes :=
  u32_le_bytes (n % 2 ^ 32).toNat

/-- The 7-bit groups of `n`, least significant first (the `while n > 0` loop of
`write_uint7`), structurally recursive on a fuel bound (`n / 2^7 < n` for
`n > 0`, so `fuel = n` always suffices). -/
def vlqGroupsRevFuel : Nat → Nat → List Nat
  | 0, _ => []
  | _ + 1, 0 => []
  | fuel + 1, n => n % 2 ^ 7 :: vlqGroupsRevFuel fuel (n / 2 ^ 7)

/-- The 7-bit groups of `n`, least significant first. -/
def vlqGroupsRev (n : Nat) : List Nat := vlqGroupsRevFuel n n

/-- Rust `write_uint7`: the final 7-bit group as-is, every earlier group with the
continuation bit `0x80` set, most significant group first. -/
def write_uint7 (n : Nat) : Bytes :=
  match vlqGroupsRev (n / 2 ^ 7) with
  | gs => (gs.map (· + 0x80)).reverse ++ [n % 2 ^ 7]

/-- Rust `write_uint7_64` writes the same byte sequence as `write_uint7`
(the buffers differ only in capacity). -/
def write_uint7_64 (n : Nat) : Bytes := write_uint7 n

/-- Rust `zigzag_encode_i32`: `((n << 1) ^ (n >> 31)) as u32`. -/
def zigzag_encode_i32 (n : Int) : Nat :=
  if n < 0 then (-2 * n - 1).toNat else (2 * n).toNat

/-- Rust `zigzag_encode_i64`. -/
def zigzag_encode_i64 (n : Int) : Nat :=
  if n < 0 then (-2 * n - 1).toNat else (2 * n).toNat

/-- Rust `write_sint7`. -/
def write_sint7 (n : Int) : Bytes := write_uint7 (zigzag_encode_i32 n)

/-- Rust `write_sint7_64`. -/
def write_sint7_64 (n : Int) : Bytes := write_uint7 (zigzag_encode_i64 n)

/-- Modelled from the spec: the ITF8 writer (`io/writer/num/itf8.rs` is not in
the tree), the dual of `read_itf8`. The length selection follows the in-tree
`itf8_size_of` (`io/writer/num.rs`): 1 byte iff `n >> 7 == 0`, 2 iff
`n >> 14 == 0`, 3 iff `n >> 21 == 0`, 4 iff `n >> 28 == 0`, else 5 — on the
`u32` bitcast of the value. -/
def write_itf8 (value : Int) : Bytes :=
  let n := (value % 2 ^ 32).toNat
  if n < 2 ^ 7 then [n]
  else if n < 2 ^ 14 then [0x80 + n / 2 ^ 8, n % 2 ^ 8]
  else if n < 2 ^ 21 then [0xc0 + n / 2 ^ 16, n / 2 ^ 8 % 2 ^ 8, n % 2 ^ 8]
  else if n < 2 ^ 28 then
    [0xe0 + n / 2 ^ 24, n / 2 ^ 16 % 2 ^ 8, n / 2 ^ 8 % 2 ^ 8, n % 2 ^ 8]
  else
    [0xf0 + n / 2 ^ 28, n / 2 ^ 20 % 2 ^ 8, n / 2 ^ 12 % 2 ^ 8,
      n / 2 ^ 4 % 2 ^ 8, n % 2 ^ 4]

/-- Modelled from the spec: the LTF8 writer (`io/writer/num/ltf8.rs` is not in
the tree), the dual of `read_ltf8` on the `u64` bitcast of the value, using
the shortest form that fits. -/
def write_ltf8 (value : Int) : Bytes :=
  let n := (value % 2 ^ 64).toNat
  if n < 2 ^ 7 then [n]
  else if n < 2 ^ 14 then [0x80 + n / 2 ^ 8, n % 2 ^ 8]
  else if n < 2 ^ 21 then [0xc0 + n / 2 ^ 16, n / 2 ^ 8 % 2 ^ 8, n % 2 ^ 8]
  else if n < 2 ^ 28 then
    [0xe0 + n / 2 ^ 24, n / 2 ^ 16 % 2 ^ 8, n / 2 ^ 8 % 2 ^ 8, n % 2 ^ 8]
  else if n < 2 ^ 35 then
    [0xf0 + n / 2 ^ 32, n / 2 ^ 24 % 2 ^ 8, n / 2 ^ 16 % 2 ^ 8,
      n / 2 ^ 8 % 2 ^ 8, n % 2 ^ 8]
  else if n < 2 ^ 42 then
    [0xf8 + n / 2 ^ 40, n / 2 ^ 32 % 2 ^ 8, n / 2 ^ 24 % 2 ^ 8,
      n / 2 ^ 16 % 2 ^ 8, n / 2 ^ 8 % 2 ^ 8, n % 2 ^ 8]
  else if n < 2 ^ 49 then
    [0xfc + n / 2 ^ 48, n / 2 ^ 40 % 2 ^ 8, n / 2 ^ 32 % 2 ^ 8,
      n / 2 ^ 24 % 2 ^ 8, n / 2 ^ 16 % 2 ^ 8, n / 2 ^ 8 % 2 ^ 8, n % 2 ^ 8]
  else if n < 2 ^ 56 then
    [0xfe, n / 2 ^ 48 % 2 ^ 8, n / 2 ^ 40 % 2 ^ 8, n / 2 ^ 32 % 2 ^ 8,
      n / 2 ^ 24 % 2 ^ 8, n / 2 ^ 16 % 2 ^ 8, n / 2 ^ 8 % 2 ^ 8, n % 2 ^ 8]
  else
    [0xff, n / 2 ^ 56 % 2 ^ 8, n / 2 ^ 48 % 2 ^ 8, n / 2 ^ 40 % 2 ^ 8,
      n / 2 ^ 32 % 2 ^ 8, n / 2 ^ 24 % 2 ^ 8, n / 2 ^ 16 % 2 ^ 8,
      n / 2 ^ 8 % 2 ^ 8, n % 2 ^ 8]

/-! ## CRC32 -/

/-- Modelled from the spec: one byte step of the CRC32 used by the
`flate2::Crc{Reader,Writer}` adapters (standard reflected CRC-32/ISO-HDLC,
polynomial `0xEDB88320`). -/
def crc32Step (s b : Nat) : Nat :=
  (List.range 8).foldl
    (fun s _ => if s % 2 = 1 then (s / 2) ^^^ 0xedb88320 else s / 2)
    (s ^^^ b % 256)

/-- Modelled from the spec: CRC32 of a byte sequence (init and xor-out
`0xFFFFFFFF`). -/
def crc32 (bs : Bytes) : Nat :=
  (bs.foldl crc32Step 0xffffffff) ^^^ 0xffffffff

/-! ## Version-dispatched numeric readers (`io/reader/num.rs`) -/

/-- Rust `read_signed_int`: sint7 on ≥ 4.0, ITF8 otherwise. -/
def read_signed_int (version : Version) (src : Bytes) : Except Err (Int × Bytes) :=
  if version.uses_vlq then read_sint7 src else read_itf8 src

/-- Rust `read_header_int`: uint7 bitcast to `i32` on ≥ 4.0, ITF8 otherwise. -/
def read_header_int (version : Version) (src : Bytes) : Except Err (Int × Bytes) :=
  if version.uses_vlq then do
    let (n, rest) ← read_uint7 src
    .ok (if n < 2 ^ 31 then (n : Int) else (n : Int) - 2 ^ 32, rest)
  else read_itf8 src

/-- Rust `read_unsigned_int` (result `i32`): uint7 with a checked `u32 → i32`
conversion on ≥ 4.0, ITF8 otherwise. -/
def read_unsigned_int (version : Version) (src : Bytes) : Except Err (Int × Bytes) :=
  if version.uses_vlq then do
    let (n, rest) ← read_uint7 src
    if n < 2 ^ 31 then .ok ((n : Int), rest) else .error .invalidData
  else read_itf8 src

/-- Rust `read_unsigned_int_as::<usize>`: uint7 on ≥ 4.0 (a `u32` always fits a
`usize`), ITF8 otherwise with a checked `i32 → usize` conversion that rejects
negative values. -/
def read_unsigned_int_as_usize (version : Version) (src : Bytes) :
    Except Err (Nat × Bytes) :=
  if version.uses_vlq then read_uint7 src
  else do
    let (n, rest) ← read_itf8 src
    if n < 0 then .error .invalidData else .ok (n.toNat, rest)

/-- Rust `read_long_as::<u64>`: uint7_64 (checked through `i64`) on ≥ 4.0, LTF8
with a checked `i64 → u64` conversion otherwise. -/
def read_long_as_u64 (version : Version) (src : Bytes) : Except Err (Nat × Bytes) :=
  if version.uses_vlq then do
    let (n, rest) ← read_uint7_64 src
    if n < 2 ^ 63 then .ok (n, rest) else .error .invalidData
  else do
    let (n, rest) ← read_ltf8 src
    if n < 0 then .error .invalidData else .ok (n.toNat, rest)

/-- Rust `read_position` (result `i64`): uint7_64 (checked) on ≥ 4.0, ITF8
widened to `i64` otherwise. -/
def read_position (version : Version) (src : Bytes) : Except Err (Int × Bytes) :=
  if version.has_64bit_positions then do
    let (n, rest) ← read_uint7_64 src
    if n < 2 ^ 63 then .ok ((n : Int), rest) else .error .invalidData
  else read_itf8 src

/-! ## Version-dispatched numeric writers (`io/writer/num.rs`) -/

/-- Rust `write_int`: uint7 (checked non-negative) on ≥ 4.0, ITF8 otherwise. -/
def write_int (version : Version) (value : Int) : Except Err Bytes :=
  if version.uses_vlq then
    if value < 0 then .error .invalidInput else .ok (write_uint7 value.toNat)
  else .ok (write_itf8 value)

/-- Rust `write_signed_int`: sint7 on ≥ 4.0, ITF8 otherwise. -/
def write_signed_int (version : Version) (value : Int) : Except Err Bytes :=
  if version.uses_vlq then .ok (write_sint7 value) else .ok (write_itf8 value)

/-- Rust `write_long`: uint7_64 (checked non-negative) on ≥ 4.0, LTF8 otherwise. -/
def write_long (version : Version) (value : Int) : Except Err Bytes :=
  if version.uses_vlq then
    if value < 0 then .error .invalidInput else .ok (write_uint7_64 value.toNat)
  else .ok (write_ltf8 value)

/-- Rust `write_position`: uint7_64 (checked non-negative) on ≥ 4.0, ITF8 narrowed
from `i64` (checked) otherwise. -/
def write_position (version : Version) (value : Int) : Except Err Bytes :=
  if version.has_64bit_positions then
    if value < 0 then .error .invalidInput else .ok (write_uint7_64 value.toNat)
  else
    if value < -(2 ^ 31) ∨ 2 ^ 31 ≤ value then .error .invalidInput
    else .ok (write_itf8 value)

/-! ## Container header (`io/reader/container/header.rs`) -/

/-- Modelled from the spec: `ReferenceSequenceContext` (the `container`
module root is not in the tree). `Some{id, alignment_start, alignment_end}`
for a mapped single-reference collection, `None` for unmapped, `Many` for
multi-reference. -/
inductive ReferenceSequenceContext
  | some (reference_sequence_id : Nat) (alignment_start alignment_end : Int)
  | none
  | many
  deriving DecidableEq, Repr

/-- Modelled from the spec:
`ReferenceSequenceContext::try_from((reference_sequence_id, alignment_start,
alignment_span))`. Construction fails if `reference_sequence_id == -1` with a
nonzero span or position, or `== -2` with a position; for a non-negative id
the positions must be valid (1-based), with
`alignment_end = alignment_start + alignment_span - 1`. -/
def refCtxTryFrom (reference_sequence_id alignment_start alignment_span : Int) :
    Except Err ReferenceSequenceContext :=
  if 0 ≤ reference_sequence_id then
    if 1 ≤ alignment_start ∧ 1 ≤ alignment_start + alignment_span - 1 then
      .ok (.some reference_sequence_id.toNat alignment_start
        (alignment_start + alignment_span - 1))
    else .error .invalidData
  else if reference_sequence_id = -1 then
    if alignment_start = 0 ∧ alignment_span = 0 then .ok .none
    else .error .invalidData
  else if reference_sequence_id = -2 then
    if alignment_start = 0 ∧ alignment_span = 0 then .ok .many
    else .error .invalidData
  else .error .invalidData

/-- Rust `container::Header` as populated by the reader: the reference-sequence
context, counts, and landmarks. -/
structure Header where
  reference_sequence_context : ReferenceSequenceContext
  record_count : Nat
  record_counter : Nat
  base_count : Nat
  block_count : Nat
  landmarks : List Nat
  deriving DecidableEq, Repr

/-- Rust `Header::default()`. -/
def defaultHeader : Header :=
  { reference_sequence_context := .none
    record_count := 0
    record_counter := 0
    base_count := 0
    block_count := 0
    landmarks := [] }

def EOF_LENGTH : Nat := 15
def EOF_LENGTH_V2 : Nat := 11
def EOF_REFERENCE_SEQUENCE_ID : Int := -1
def EOF_REFERENCE_SEQUENCE_ID_V4 : Int := 1
def EOF_ALIGNMENT_START : Int := 4542278
def EOF_BLOCK_COUNT : Nat := 1
def EOF_CRC32 : Nat := 0x4fd9bd05
def EOF_CRC32_V4 : Nat := 0xaef78f52

/-- Rust `is_eof`: the version-free EOF-sentinel predicate used on CRC-bearing
versions, true for the v3 pattern (id `-1`, CRC `0x4fd9bd05`) or the v4
pattern (id `1`, CRC `0xaef78f52`). -/
def is_eof (length : Nat) (reference_sequence_id alignment_start : Int)
    (block_count : Nat) (crc : Nat) : Bool :=
  (length == EOF_LENGTH && reference_sequence_id == EOF_REFERENCE_SEQUENCE_ID &&
    alignment_start == EOF_ALIGNMENT_START && block_count == EOF_BLOCK_COUNT &&
    crc == EOF_CRC32) ||
  (length == EOF_LENGTH && reference_sequence_id == EOF_REFERENCE_SEQUENCE_ID_V4 &&
    alignment_start == EOF_ALIGNMENT_START && block_count == EOF_BLOCK_COUNT &&
    crc == EOF_CRC32_V4)

/-- Rust `is_eof_v2`: the CRAM 2.x EOF-sentinel predicate (no CRC). -/
def is_eof_v2 (length : Nat) (reference_sequence_id alignment_start : Int)
    (block_count : Nat) : Bool :=
  length == EOF_LENGTH_V2 && reference_sequence_id == EOF_REFERENCE_SEQUENCE_ID &&
    alignment_start == EOF_ALIGNMENT_START && block_count == EOF_BLOCK_COUNT

/-- Rust `read_landmarks`: a count followed by that many offsets. -/
def read_landmarks (version : Version) : Nat → Bytes → Except Err (List Nat × Bytes)
  | 0, src => .ok ([], src)
  | k + 1, src => do
      let (pos, rest) ← read_unsigned_int_as_usize version src
      let (tail, rest) ← read_landmarks version k rest
      .ok (pos :: tail, rest)

/-- The field-parsing prefix of `read_header_inner`: everything the
`CrcReader` sees (length, reference context fields, counts, landmarks). -/
structure HeaderFields where
  len : Nat
  reference_sequence_id : Int
  alignment_start : Int
  alignment_span : Int
  record_count : Nat
  record_counter : Nat
  base_count : Nat
  block_count : Nat
  landmarks : List Nat
  deriving DecidableEq, Repr

/-- The straight-line field reads at the start of `read_header_inner`,
split out so that theorems can refer to the parsed fields. -/
def readHeaderFields (version : Version) (src : Bytes) :
    Except Err (HeaderFields × Bytes) := do
  let (len, s) ←
    if version.uses_vlq then read_uint7 src
    else do
      let (n, s) ← read_i32_le src
      if n < 0 then .error .invalidData else .ok (n.toNat, s)
  let (reference_sequence_id, s) ← read_header_int version s
  let (alignment_start, s) ← read_position version s
  let (alignment_span, s) ← read_position version s
  let (record_count, s) ← read_unsigned_int_as_usize version s
  let (record_counter, s) ← read_long_as_u64 version s
  let (base_count, s) ← read_long_as_u64 version s
  let (block_count, s) ← read_unsigned_int_as_usize version s
  let (n, s) ← read_unsigned_int_as_usize version s
  let (landmarks, s) ← read_landmarks version n s
  .ok ({ len, reference_sequence_id, alignment_start, alignment_span,
         record_count, record_counter, base_count, block_count, landmarks }, s)

/-- Rust `read_header_inner`: parse the fields through a CRC-tracking reader, then
on CRC-bearing versions verify the trailing CRC32 (read via `get_mut`, thus
not part of the computed CRC) and check the EOF sentinel; on 2.x check the
CRC-less sentinel. The EOF check precedes reference-context construction.
Returns the declared container length (`0` for an EOF container), the updated
header, and the unconsumed bytes. -/
def readHeaderInner (version : Version) (header : Header) (src : Bytes) :
    Except Err (Nat × Header × Bytes) :=
  match readHeaderFields version src with
  | .error e => .error e
  | .ok (f, s) =>
    let header := { header with
      record_count := f.record_count
      record_counter := f.record_counter
      base_count := f.base_count
      block_count := f.block_count
      landmarks := f.landmarks }
    if version.has_crc32 then
      let actual_crc32 := crc32 (src.take (src.length - s.length))
      match read_u32_le s with
      | .error e => .error e
      | .ok (expected_crc32, s) =>
        if actual_crc32 ≠ expected_crc32 then .error .invalidData
        else if is_eof f.len f.reference_sequence_id f.alignment_start
            f.block_count expected_crc32 then
          .ok (0, header, s)
        else
          match refCtxTryFrom f.reference_sequence_id f.alignment_start
            f.alignment_span with
          | .error e => .error e
          | .ok ctx =>
            .ok (f.len, { header with reference_sequence_context := ctx }, s)
    else
      if is_eof_v2 f.len f.reference_sequence_id f.alignment_start
          f.block_count then
        .ok (0, header, s)
      else
        match refCtxTryFrom f.reference_sequence_id f.alignment_start
          f.alignment_span with
        | .error e => .error e
        | .ok ctx =>
          .ok (f.len, { header with reference_sequence_context := ctx }, s)

/-- Rust `read_header`: `read_header_inner` with `UnexpectedEof` converted to
`Ok(0)` (no more data). On that path the Rust leaves the header and stream in
an unspecified partially-consumed state; only the returned length is
observable, so the input header and stream are returned unchanged here. -/
def read_header (version : Version) (header : Header) (src : Bytes) :
    Except Err (Nat × Header × Bytes) :=
  match readHeaderInner version header src with
  | .error .unexpectedEof => .ok (0, header, src)
  | r => r

/-! ## EOF container writer (`io/writer/container.rs`) -/

/-- The fixed 38-byte v3.0/v3.1 EOF container `EOF_V3`. -/
def EOF_V3 : Bytes :=
  [0x0f, 0x00, 0x00, 0x00, 0xff, 0xff, 0xff, 0xff, 0x0f, 0xe0, 0x45, 0x4f,
   0x46, 0x00, 0x00, 0x00, 0x00, 0x01, 0x00, 0x05, 0xbd, 0xd9, 0x4f, 0x00,
   0x01, 0x00, 0x06, 0x06, 0x01, 0x00, 0x01, 0x00, 0x01, 0x00, 0xee, 0x63,
   0x01, 0x4b]

/-- Rust `build_eof_container`: the literal `EOF_V3` for v3.0/v3.1; otherwise an
EOF container synthesised with the version's own numeric encodings, the
reference-sequence id written with the *signed* encoding, and CRC32 suffixes
on the header and block when the version has CRC32. -/
def build_eof_container (version : Version) : Except Err Bytes :=
  if version = Version.V3_0 ∨ version = Version.V3_1 then .ok EOF_V3
  else do
    let contentId ← write_int version 0
    let compressedSize ← write_int version 6
    let uncompressedSize ← write_int version 6
    let block_body := [0x00, 0x01] ++ contentId ++ compressedSize ++
      uncompressedSize ++ [0x01, 0x00, 0x01, 0x00, 0x01, 0x00]
    let block_buf :=
      if version.has_crc32 then block_body ++ u32_le_bytes (crc32 block_body)
      else block_body
    let block_len : Int := block_buf.length
    let lenBytes ←
      if version.uses_vlq then write_int version block_len
      else .ok (i32_le_bytes block_len)
    let refId ← write_signed_int version (-1)
    let alignmentStart ← write_position version 0x454f46
    let alignmentSpan ← write_position version 0
    let recordCount ← write_int version 0
    let recordCounter ← write_long version 0
    let baseCount ← write_long version 0
    let blockCount ← write_int version 1
    let landmarkCount ← write_int version 0
    let header_body := lenBytes ++ refId ++ alignmentStart ++ alignmentSpan ++
      recordCount ++ recordCounter ++ baseCount ++ blockCount ++ landmarkCount
    let result :=
      if version.has_crc32 then header_body ++ u32_le_bytes (crc32 header_body)
      else header_body
    .ok (result ++ block_buf)

/-- The composition checked by claim C1: build the EOF container for a
version and read a container header back from it at the same version;
`true` iff that read returns length `0` (end of data). -/
def eofRoundTripOk (version : Version) : Bool :=
  match build_eof_container version with
  | .ok bytes =>
      match read_header version defaultHeader bytes with
      | .ok (n, _, _) => n == 0
      | .error _ => false
  | .error _ => false

/-! ## Claim C1 -/

/-- C1: for every supported version V in {2.0, 2.1, 3.0, 3.1, 4.0}, reading a
container header at version V from the byte sequence produced by
`build_eof_container(V)` returns `Ok(0)` (end of data): the
writer-synthesised (v2.x, 4.0) or hard-coded (v3.0, 3.1) EOF container is
recognised by the reader's EOF-sentinel check, including the hard-coded CRC32
constants for v3 and v4. -/
theorem eof_container_round_trip_all_versions :
    eofRoundTripOk Version.V2_0 = true ∧ eofRoundTripOk Version.V2_1 = true ∧
    eofRoundTripOk Version.V3_0 = true ∧ eofRoundTripOk Version.V3_1 = true ∧
    eofRoundTripOk Version.V4_0 = true := by
  refine ⟨?_, ?_, ?_, ?_, ?_⟩ <;> decide

/-! ## Claim C3 -/

/-- The C3 fixture input (as listed in the claim; it has 18 bytes). -/
def c3Bytes : Bytes :=
  [0x90, 0x00, 0x00, 0x00, 0x02, 0x03, 0x05, 0x08, 0x0d, 0x15, 0x22, 0x02,
   0x37, 0x59, 0x21, 0xf7, 0x9c, 0xed]

/-- The first 17 bytes of the C3 fixture (the byte count the claim states). -/
def c3Bytes17 : Bytes := c3Bytes.take 17

/-- The header the C3 fixture should produce. -/
def c3ExpectedHeader : Header :=
  { reference_sequence_context := .some 2 3 7
    record_count := 8
    record_counter := 13
    base_count := 21
    block_count := 34
    landmarks := [55, 89] }

/-- C3 (counterexample): the claim says "the 17 bytes", but the sequence it
lists has 18 bytes; reading only the first 17 of them truncates the CRC32,
which surfaces as `UnexpectedEof` and makes `read_header` report end of data
(`Ok(0)`) instead of a 144-byte container. -/
theorem c3_seventeen_byte_prefix_reads_as_eof :
    read_header Version.V3_0 defaultHeader c3Bytes17 =
      .ok (0, defaultHeader, c3Bytes17) ∧
    read_header Version.V3_0 defaultHeader c3Bytes17 ≠
      .ok (144, c3ExpectedHeader, []) := by
  constructor <;> decide

/-- C3 (amended: the listed byte sequence has 18 bytes, not 17): reading a
container header at version 3.0 from the bytes
`90 00 00 00 02 03 05 08 0d 15 22 02 37 59 21 f7 9c ed` succeeds with length
144, a reference-sequence context with id 2, alignment start 3 and alignment
end 7 (span 5), record count 8, record counter 13, base count 21, block
count 34, and landmarks [55, 89], with the trailing CRC32 validating. -/
theorem container_header_fixture_parses :
    read_header Version.V3_0 defaultHeader c3Bytes =
      .ok (144, c3ExpectedHeader, []) := by
  decide

/-! ## Claims C2 and C9 -/

/-- Shared lemma: on a CRC-bearing version, whenever the container-header
fields parse, the stored CRC32 equals the CRC32 computed over the consumed
bytes, and the version-free `is_eof` predicate holds of the parsed fields,
`read_header` returns length `0`. -/
theorem read_header_eof_sentinel (version : Version) (header : Header)
    (src rest rest2 : Bytes) (f : HeaderFields) (c : Nat)
    (hv : version.has_crc32 = true)
    (hf : readHeaderFields version src = .ok (f, rest))
    (hc : read_u32_le rest = .ok (c, rest2))
    (hcrc : crc32 (src.take (src.length - rest.length)) = c)
    (heof : is_eof f.len f.reference_sequence_id f.alignment_start
      f.block_count c = true) :
    read_header version header src =
      .ok (0, { header with
        record_count := f.record_count
        record_counter := f.record_counter
        base_count := f.base_count
        block_count := f.block_count
        landmarks := f.landmarks }, rest2) := by
  have hinner : readHeaderInner version header src =
      .ok (0, { header with
        record_count := f.record_count
        record_counter := f.record_counter
        base_count := f.base_count
        block_count := f.block_count
        landmarks := f.landmarks }, rest2) := by
    unfold readHeaderInner
    rw [hf]
    simp only [hv, if_true, hc, hcrc, heof, ne_eq, not_true_eq_false,
      if_false, ite_true, not_false_eq_true]
  unfold read_header
  rw [hinner]

/-- C2: on a CRC-bearing version, an input whose container-header fields
match the v3 EOF sentinel (length 15, reference-sequence id -1, alignment
start 4542278, block count 1) with the hard-coded CRC32 `0x4fd9bd05` (which
must also be the CRC32 of the consumed bytes) makes `read_header` return
`Ok(0)` rather than a parsed container; and on any version, an input on which
container-header parsing fails with `UnexpectedEof` makes `read_header`
return `Ok(0)` instead of propagating the error. -/
theorem read_header_eof_and_truncation (version : Version) (header : Header)
    (src rest rest2 : Bytes) (f : HeaderFields)
    (hv : version.has_crc32 = true)
    (hf : readHeaderFields version src = .ok (f, rest))
    (hc : read_u32_le rest = .ok (EOF_CRC32, rest2))
    (hcrc : crc32 (src.take (src.length - rest.length)) = EOF_CRC32)
    (hlen : f.len = 15) (hrsid : f.reference_sequence_id = -1)
    (hstart : f.alignment_start = 4542278) (hbc : f.block_count = 1)
    (version2 : Version) (header2 : Header) (src2 : Bytes)
    (he : readHeaderInner version2 header2 src2 = .error .unexpectedEof) :
    read_header version header src =
      .ok (0, { header with
        record_count := f.record_count
        record_counter := f.record_counter
        base_count := f.base_count
        block_count := f.block_count
        landmarks := f.landmarks }, rest2) ∧
    read_header version2 header2 src2 = .ok (0, header2, src2) := by
  constructor
  · exact read_header_eof_sentinel version header src rest rest2 f EOF_CRC32
      hv hf hc hcrc (by rw [hlen, hrsid, hstart, hbc]; decide)
  · unfold read_header
    rw [he]

/-- C2 witness: the fixed v3 EOF container header at version 3.0 reads as
`Ok(0)` via the sentinel branch, and the empty input (which truncates
immediately) also reads as `Ok(0)`. -/
theorem read_header_eof_and_truncation_witness :
    read_header Version.V3_0 defaultHeader (EOF_V3.take 23) =
      .ok (0, { defaultHeader with block_count := 1 }, []) ∧
    read_header Version.V3_0 defaultHeader [] =
      .ok (0, defaultHeader, []) := by
  have h := read_header_eof_and_truncation Version.V3_0 defaultHeader
    (EOF_V3.take 23) [0x05, 0xbd, 0xd9, 0x4f] []
    ({ len := 15, reference_sequence_id := -1, alignment_start := 4542278,
       alignment_span := 0, record_count := 0, record_counter := 0,
       base_count := 0, block_count := 1, landmarks := [] })
    (by decide) (by decide) (by decide) (by decide) (by decide) (by decide)
    (by decide) (by decide)
    Version.V3_0 defaultHeader [] (by decide)
  exact h

/-- C9: the EOF-sentinel predicate used after container-header CRC
verification does not consult the declared file version: on any version with
CRC32, a parsed header satisfying `is_eof` — in particular the v3 pattern
(reference-sequence id -1 with CRC32 `0x4fd9bd05`) or the v4 pattern
(reference-sequence id 1 with CRC32 `0xaef78f52`), each with length 15,
alignment start 4542278 and block count 1 — is reported as end of stream
(`read_header` returns `Ok(0)`); both patterns satisfy the version-free
predicate, so a v3.0 reader accepts a v4-style EOF sentinel and vice versa. -/
theorem eof_sentinel_ignores_version (version : Version) (header : Header)
    (src rest rest2 : Bytes) (f : HeaderFields) (c : Nat)
    (hv : version.has_crc32 = true)
    (hf : readHeaderFields version src = .ok (f, rest))
    (hc : read_u32_le rest = .ok (c, rest2))
    (hcrc : crc32 (src.take (src.length - rest.length)) = c)
    (heof : is_eof f.len f.reference_sequence_id f.alignment_start
      f.block_count c = true) :
    read_header version header src =
      .ok (0, { header with
        record_count := f.record_count
        record_counter := f.record_counter
        base_count := f.base_count
        block_count := f.block_count
        landmarks := f.landmarks }, rest2) ∧
    is_eof 15 1 4542278 1 EOF_CRC32_V4 = true ∧
    is_eof 15 (-1) 4542278 1 EOF_CRC32 = true := by
  exact ⟨read_header_eof_sentinel version header src rest rest2 f c
    hv hf hc hcrc heof, by decide, by decide⟩

/-- A version-3.0 input whose container-header fields form the *v4* EOF
pattern (reference-sequence id 1, stored CRC32 `0xaef78f52`): the four bytes
`38 76 af 80` inside the final five-byte-ITF8 landmark make the header's
CRC32 equal the v4 EOF constant. -/
def v4PatternAtV3Bytes : Bytes :=
  [0x0f, 0x00, 0x00, 0x00, 0x01, 0xe0, 0x45, 0x4f, 0x46, 0x00, 0x00, 0x00,
   0x00, 0x01, 0x02, 0x00, 0xf0, 0x38, 0x76, 0xaf, 0x80, 0x52, 0x8f, 0xf7,
   0xae]

/-- C9 witness: a v3.0 reader accepts the crafted v4-pattern sentinel input
(reference-sequence id 1, CRC32 `0xaef78f52`), returning `Ok(0)`. -/
theorem eof_sentinel_ignores_version_witness :
    read_header Version.V3_0 defaultHeader v4PatternAtV3Bytes =
      .ok (0, { defaultHeader with block_count := 1, landmarks := [0, 59206384] }, []) ∧
    is_eof 15 1 4542278 1 EOF_CRC32_V4 = true ∧
    is_eof 15 (-1) 4542278 1 EOF_CRC32 = true := by
  have h := eof_sentinel_ignores_version Version.V3_0 defaultHeader
    v4PatternAtV3Bytes [0x52, 0x8f, 0xf7, 0xae] []
    ({ len := 15, reference_sequence_id := 1, alignment_start := 4542278,
       alignment_span := 0, record_count := 0, record_counter := 0,
       base_count := 0, block_count := 1, landmarks := [0, 59206384] })
    EOF_CRC32_V4
    (by decide) (by decide) (by decide) (by decide) (by decide)
  exact h

/-! ## Claim C10 -/

/-- A well-formed VLQ byte group: every byte before the last has the
continuation bit (`0x80`) set, the last does not. -/
def isTermChunk : List Nat → Bool
  | [] => false
  | [b] => b % 2 ^ 8 < 2 ^ 7
  | b :: rest => decide (2 ^ 7 ≤ b % 2 ^ 8) && isTermChunk rest

/-- The mathematical (unwrapped) value of concatenated 7-bit payload
groups, most significant first. -/
def rawVlq (pre : List Nat) : Nat :=
  pre.foldl (fun a b => a * 2 ^ 7 + b % 2 ^ 7) 0

theorem rawVlq_foldl_congr (m : Nat) (pre : List Nat) :
    ∀ a a', a % m = a' % m →
      (pre.foldl (fun a b => a * 2 ^ 7 + b % 2 ^ 7) a) % m =
      (pre.foldl (fun a b => a * 2 ^ 7 + b % 2 ^ 7) a') % m := by
  induction pre with
  | nil => intro a a' h; simpa using h
  | cons b pre ih =>
      intro a a' h
      simp only [List.foldl_cons]
      exact ih _ _ (by
        rw [Nat.add_mod, Nat.mul_mod, h, ← Nat.mul_mod, ← Nat.add_mod])

theorem wrap_step_eq (w a b : Nat) (hw : 7 ≤ w) :
    (a * 2 ^ 7) % 2 ^ w + b % 2 ^ 7 = (a * 2 ^ 7 + b % 2 ^ 7) % 2 ^ w := by
  have hdvd : (2 ^ 7 : Nat) ∣ (a * 2 ^ 7) % 2 ^ w := by
    have h1 : (2 ^ 7 : Nat) ∣ 2 ^ w := pow_dvd_pow 2 hw
    exact (Nat.dvd_mod_iff h1).mpr ⟨a, Nat.mul_comm a (2 ^ 7)⟩
  have hlt : (a * 2 ^ 7) % 2 ^ w < 2 ^ w :=
    Nat.mod_lt _ (Nat.pos_pow_of_pos w (by norm_num))
  have hble : b % 2 ^ 7 < 2 ^ 7 := Nat.mod_lt _ (by norm_num)
  obtain ⟨t, ht⟩ := hdvd
  have hsum : (a * 2 ^ 7) % 2 ^ w + b % 2 ^ 7 < 2 ^ w := by
    have h27 : (2 ^ 7 : Nat) * t + 2 ^ 7 ≤ 2 ^ w := by
      have : t < 2 ^ w / 2 ^ 7 := by
        have := hlt
        rw [ht] at this
        have hw7 : (2 ^ 7 : Nat) * (2 ^ w / 2 ^ 7) = 2 ^ w := by
          rw [Nat.mul_div_cancel' (pow_dvd_pow 2 hw)]
        omega
      have h2 : (2 ^ 7 : Nat) * (t + 1) ≤ 2 ^ 7 * (2 ^ w / 2 ^ 7) :=
        Nat.mul_le_mul_left _ this
      rw [Nat.mul_div_cancel' (pow_dvd_pow 2 hw)] at h2
      omega
    omega
  have hble' : b % 2 ^ 7 % 2 ^ w = b % 2 ^ 7 :=
    Nat.mod_eq_of_lt (lt_of_lt_of_le hble (Nat.pow_le_pow_right (by norm_num) hw))
  conv_rhs => rw [Nat.add_mod, hble']
  rw [Nat.mod_eq_of_lt hsum]

theorem read_uint7_loop_cons (n count b : Nat) (rest : Bytes) :
    read_uint7_loop n count (b :: rest) =
      if count + 1 > 5 then .error .invalidData
      else if b % 2 ^ 8 < 2 ^ 7 then
        .ok ((n * 2 ^ 7) % 2 ^ 32 + b % 2 ^ 7, rest)
      else read_uint7_loop ((n * 2 ^ 7) % 2 ^ 32 + b % 2 ^ 7) (count + 1) rest :=
  rfl

theorem read_uint7_64_loop_cons (n count b : Nat) (rest : Bytes) :
    read_uint7_64_loop n count (b :: rest) =
      if count + 1 > 10 then .error .invalidData
      else if b % 2 ^ 8 < 2 ^ 7 then
        .ok ((n * 2 ^ 7) % 2 ^ 64 + b % 2 ^ 7, rest)
      else read_uint7_64_loop ((n * 2 ^ 7) % 2 ^ 64 + b % 2 ^ 7) (count + 1) rest :=
  rfl

theorem read_uint7_loop_chunk (pre : List Nat) :
    ∀ (n count : Nat) (rest : Bytes), isTermChunk pre = true →
      count + pre.length ≤ 5 →
      read_uint7_loop n count (pre ++ rest) =
        .ok (pre.foldl (fun a b => (a * 2 ^ 7) % 2 ^ 32 + b % 2 ^ 7) n, rest) := by
  induction pre with
  | nil => intro n count rest h _; simp [isTermChunk] at h
  | cons b pre ih =>
      intro n count rest h hlen
      simp only [List.length_cons] at hlen
      cases pre with
      | nil =>
          simp only [isTermChunk, decide_eq_true_eq] at h
          rw [List.cons_append, List.nil_append, read_uint7_loop_cons,
            if_neg (by omega), if_pos h]
          simp
      | cons b' pre' =>
          simp only [isTermChunk, Bool.and_eq_true, decide_eq_true_eq] at h
          obtain ⟨h1, h2⟩ := h
          rw [List.cons_append, read_uint7_loop_cons,
            if_neg (by omega), if_neg (by omega),
            ih _ _ _ h2 (by simp only [List.length_cons] at hlen ⊢; omega)]
          simp

theorem read_uint7_64_loop_chunk (pre : List Nat) :
    ∀ (n count : Nat) (rest : Bytes), isTermChunk pre = true →
      count + pre.length ≤ 10 →
      read_uint7_64_loop n count (pre ++ rest) =
        .ok (pre.foldl (fun a b => (a * 2 ^ 7) % 2 ^ 64 + b % 2 ^ 7) n, rest) := by
  induction pre with
  | nil => intro n count rest h _; simp [isTermChunk] at h
  | cons b pre ih =>
      intro n count rest h hlen
      simp only [List.length_cons] at hlen
      cases pre with
      | nil =>
          simp only [isTermChunk, decide_eq_true_eq] at h
          rw [List.cons_append, List.nil_append, read_uint7_64_loop_cons,
            if_neg (by omega), if_pos h]
          simp
      | cons b' pre' =>
          simp only [isTermChunk, Bool.and_eq_true, decide_eq_true_eq] at h
          obtain ⟨h1, h2⟩ := h
          rw [List.cons_append, read_uint7_64_loop_cons,
            if_neg (by omega), if_neg (by omega),
            ih _ _ _ h2 (by simp only [List.length_cons] at hlen ⊢; omega)]
          simp

theorem wrapped_foldl_eq (w : Nat) (hw : 7 ≤ w) (pre : List Nat) :
    ∀ n, n < 2 ^ w →
      pre.foldl (fun a b => (a * 2 ^ 7) % 2 ^ w + b % 2 ^ 7) n =
      (pre.foldl (fun a b => a * 2 ^ 7 + b % 2 ^ 7) n) % 2 ^ w := by
  induction pre with
  | nil => intro n hn; simp [Nat.mod_eq_of_lt hn]
  | cons b pre ih =>
      intro n hn
      simp only [List.foldl_cons]
      rw [wrap_step_eq w n b hw,
        ih _ (Nat.mod_lt _ (Nat.pos_pow_of_pos w (by norm_num)))]
      exact rawVlq_foldl_congr (2 ^ w) pre _ _ (Nat.mod_mod _ _)

/-- C10: `read_uint7` reports VLQ overflow (`InvalidData`) only when a sixth
byte is consumed. For every input whose terminating byte appears within the
first 5 bytes it succeeds and returns the concatenated 7-bit payload groups
reduced modulo `2^32`, silently discarding bits shifted above bit 31 — so a
5-byte encoding of a value `≥ 2^32` decodes without error to a wrapped
value. `read_uint7_64` behaves analogously with a 10-byte limit and
reduction modulo `2^64`. With five continuation bytes followed by at least
one more byte, `read_uint7` fails with `InvalidData`. -/
theorem read_uint7_wraps_within_byte_limit (pre rest : Bytes)
    (h32 : isTermChunk pre = true) (hlen : pre.length ≤ 5)
    (pre64 rest64 : Bytes)
    (h64 : isTermChunk pre64 = true) (hlen64 : pre64.length ≤ 10)
    (b0 b1 b2 b3 b4 : Nat) (tail6 : Bytes)
    (hc0 : 2 ^ 7 ≤ b0 % 2 ^ 8) (hc1 : 2 ^ 7 ≤ b1 % 2 ^ 8)
    (hc2 : 2 ^ 7 ≤ b2 % 2 ^ 8) (hc3 : 2 ^ 7 ≤ b3 % 2 ^ 8)
    (hc4 : 2 ^ 7 ≤ b4 % 2 ^ 8) (hne : tail6 ≠ []) :
    read_uint7 (pre ++ rest) = .ok (rawVlq pre % 2 ^ 32, rest) ∧
    read_uint7_64 (pre64 ++ rest64) = .ok (rawVlq pre64 % 2 ^ 64, rest64) ∧
    read_uint7 (b0 :: b1 :: b2 :: b3 :: b4 :: tail6) = .error .invalidData := by
  refine ⟨?_, ?_, ?_⟩
  · rw [read_uint7, read_uint7_loop_chunk pre 0 0 rest h32 (by omega),
      wrapped_foldl_eq 32 (by norm_num) pre 0 (by norm_num)]
    rfl
  · rw [read_uint7_64, read_uint7_64_loop_chunk pre64 0 0 rest64 h64 (by omega),
      wrapped_foldl_eq 64 (by norm_num) pre64 0 (by norm_num)]
    rfl
  · obtain ⟨b5, tail', rfl⟩ : ∃ b5 tail', tail6 = b5 :: tail' := by
      cases tail6 with
      | nil => exact absurd rfl hne
      | cons b5 t => exact ⟨b5, t, rfl⟩
    have hn0 := Nat.not_lt.mpr hc0
    have hn1 := Nat.not_lt.mpr hc1
    have hn2 := Nat.not_lt.mpr hc2
    have hn3 := Nat.not_lt.mpr hc3
    have hn4 := Nat.not_lt.mpr hc4
    simp only [read_uint7, read_uint7_loop_cons, hn0, hn1, hn2, hn3, hn4,
      if_false, ite_false]
    norm_num

/-- C10 witness: the 5-byte VLQ `90 80 80 80 00` (raw value `2^32`) decodes
without error to the wrapped value `0`; the 10-byte VLQ
`82 80 80 80 80 80 80 80 80 00` (raw value `2^64`) decodes to `0`; five
continuation bytes followed by a sixth byte fail with `InvalidData`. -/
theorem read_uint7_wraps_witness :
    read_uint7 [0x90, 0x80, 0x80, 0x80, 0x00] = .ok (0, []) ∧
    read_uint7_64 [0x82, 0x80, 0x80, 0x80, 0x80, 0x80, 0x80, 0x80, 0x80, 0x00] =
      .ok (0, []) ∧
    read_uint7 [0x80, 0x80, 0x80, 0x80, 0x80, 0x00] = .error .invalidData := by
  have h := read_uint7_wraps_within_byte_limit
    [0x90, 0x80, 0x80, 0x80, 0x00] [] (by decide) (by decide)
    [0x82, 0x80, 0x80, 0x80, 0x80, 0x80, 0x80, 0x80, 0x80, 0x00] []
    (by decide) (by decide)
    0x80 0x80 0x80 0x80 0x80 [0x00]
    (by decide) (by decide) (by decide) (by decide) (by decide) (by decide)
  exact ⟨h.1, h.2.1, h.2.2⟩

/-! ## Encodings (`container/compression_header/encoding/kind.rs`,
`io/reader/container/compression_header/encoding.rs`,
`io/reader/collections.rs`) -/

/-- Rust `encoding::Kind`. -/
inductive Kind
  | null
  | external
  | golomb
  | huffman
  | byteArrayLength
  | byteArrayStop
  | beta
  | subexp
  | golombRice
  | gamma
  | varintUnsigned
  | varintSigned
  | constByte
  | constInt
  deriving DecidableEq, Repr

/-- Rust `codec::Integer` (the cached Huffman decoder/encoder fields are derived
data, ignored by `PartialEq`, and are omitted here). -/
inductive IntegerCodec
  | external (block_content_id : Int)
  | golomb (offset m : Int)
  | huffman (alphabet : List Int) (bit_lens : List Nat)
  | beta (offset : Int) (len : Nat)
  | subexp (offset k : Int)
  | golombRice (offset log2_m : Int)
  | gamma (offset : Int)
  | varintUnsigned (block_content_id : Int) (offset : Int)
  | varintSigned (block_content_id : Int) (offset : Int)
  | constInt (value : Int)
  deriving DecidableEq, Repr

/-- Rust `codec::Byte`. -/
inductive ByteCodec
  | external (block_content_id : Int)
  | huffman (alphabet : List Int) (bit_lens : List Nat)
  | constant (value : Nat)
  deriving DecidableEq, Repr

/-- Rust `codec::ByteArray`. -/
inductive ByteArrayCodec
  | byteArrayLength (len_encoding : IntegerCodec) (value_encoding : ByteCodec)
  | byteArrayStop (stop_byte : Nat) (block_content_id : Int)
  deriving DecidableEq, Repr

/-- Rust `read_array` (`io/reader/collections.rs`): a length then that many bytes,
returned as `(args, rest)`. -/
def read_array (version : Version) (src : Bytes) : Except Err (Bytes × Bytes) := do
  let (len, s) ← read_unsigned_int_as_usize version src
  if len ≤ s.length then .ok (s.take len, s.drop len)
  else .error .unexpectedEof

theorem except_ok_bind {α β : Type} (a : α) (f : α → Except Err β) :
    (Except.ok a >>= f) = f a := rfl

theorem except_error_bind {α β : Type} (e : Err) (f : α → Except Err β) :
    ((Except.error e : Except Err α) >>= f) = .error e := rfl

/-- Read `k` values with a fixed element reader, threading the rest. -/
def readN {α : Type} (reader : Bytes → Except Err (α × Bytes)) :
    Nat → Bytes → Except Err (List α × Bytes)
  | 0, src => .ok ([], src)
  | k + 1, src => do
      let (x, s) ← reader src
      let (xs, s) ← readN reader k s
      .ok (x :: xs, s)

/-- Rust `read_kind`: decode the serialized encoding-kind number, then reject the
CRAM 4.0-only kinds (41–44) when the declared version is below 4.0. -/
def read_kind (version : Version) (src : Bytes) : Except Err (Kind × Bytes) := do
  let (n, rest) ← read_unsigned_int version src
  let kind ←
    if n = 0 then pure Kind.null
    else if n = 1 then pure Kind.external
    else if n = 2 then pure Kind.golomb
    else if n = 3 then pure Kind.huffman
    else if n = 4 then pure Kind.byteArrayLength
    else if n = 5 then pure Kind.byteArrayStop
    else if n = 6 then pure Kind.beta
    else if n = 7 then pure Kind.subexp
    else if n = 8 then pure Kind.golombRice
    else if n = 9 then pure Kind.gamma
    else if n = 41 then pure Kind.varintUnsigned
    else if n = 42 then pure Kind.varintSigned
    else if n = 43 then pure Kind.constByte
    else if n = 44 then pure Kind.constInt
    else Except.error Err.invalidData
  if (41 ≤ n ∧ n ≤ 44) ∧ Version.ltV version Version.V4_0 then
    .error .invalidData
  else .ok (kind, rest)

/-- Rust `read_external_codec`. -/
def read_external_codec (version : Version) (src : Bytes) :
    Except Err (Int × Bytes) := do
  let (args, rest) ← read_array version src
  let (block_content_id, _) ← read_unsigned_int version args
  .ok (block_content_id, rest)

/-- Rust `read_varint_codec`. -/
def read_varint_codec (version : Version) (src : Bytes) :
    Except Err ((Int × Int) × Bytes) := do
  let (args, rest) ← read_array version src
  let (block_content_id, args) ← read_unsigned_int version args
  let (offset, _) ← read_sint7_64 args
  .ok ((block_content_id, offset), rest)

/-- Rust `read_golomb_codec`. -/
def read_golomb_codec (version : Version) (src : Bytes) :
    Except Err ((Int × Int) × Bytes) := do
  let (args, rest) ← read_array version src
  let (offset, args) ← read_signed_int version args
  let (m, _) ← read_signed_int version args
  .ok ((offset, m), rest)

/-- Rust `read_huffman_codec`. -/
def read_huffman_codec (version : Version) (src : Bytes) :
    Except Err ((List Int × List Nat) × Bytes) := do
  let (args, rest) ← read_array version src
  let (alphabet_size, args) ← read_unsigned_int_as_usize version args
  let (alphabet, args) ← readN (read_signed_int version) alphabet_size args
  let (bit_lens_size, args) ← read_unsigned_int_as_usize version args
  let (bit_lens, _) ← readN (read_unsigned_int_as_usize version) bit_lens_size args
  .ok ((alphabet, bit_lens), rest)

/-- Rust `read_beta_codec`. -/
def read_beta_codec (version : Version) (src : Bytes) :
    Except Err ((Int × Nat) × Bytes) := do
  let (args, rest) ← read_array version src
  let (offset, args) ← read_signed_int version args
  let (len, _) ← read_unsigned_int_as_usize version args
  .ok ((offset, len), rest)

/-- Rust `read_subexp_codec`. -/
def read_subexp_codec (version : Version) (src : Bytes) :
    Except Err ((Int × Int) × Bytes) := do
  let (args, rest) ← read_array version src
  let (offset, args) ← read_signed_int version args
  let (k, _) ← read_signed_int version args
  .ok ((offset, k), rest)

/-- Rust `read_golomb_rice_codec`. -/
def read_golomb_rice_codec (version : Version) (src : Bytes) :
    Except Err ((Int × Int) × Bytes) := do
  let (args, rest) ← read_array version src
  let (offset, args) ← read_signed_int version args
  let (log2_m, _) ← read_signed_int version args
  .ok ((offset, log2_m), rest)

/-- Rust `read_gamma_codec`. -/
def read_gamma_codec (version : Version) (src : Bytes) :
    Except Err (Int × Bytes) := do
  let (args, rest) ← read_array version src
  let (offset, _) ← read_signed_int version args
  .ok (offset, rest)

/-- Rust `read_const_byte_codec`. -/
def read_const_byte_codec (version : Version) (src : Bytes) :
    Except Err (Nat × Bytes) := do
  let (args, rest) ← read_array version src
  match args with
  | [] => .error .unexpectedEof
  | value :: _ => .ok (value, rest)

/-- Rust `read_const_int_codec`. -/
def read_const_int_codec (version : Version) (src : Bytes) :
    Except Err (Int × Bytes) := do
  let (args, rest) ← read_array version src
  let (value, _) ← read_signed_int version args
  .ok (value, rest)

/-- Rust `read_byte_encoding`. -/
def read_byte_encoding (version : Version) (src : Bytes) :
    Except Err (ByteCodec × Bytes) := do
  let (kind, s) ← read_kind version src
  match kind with
  | .external => do
      let (block_content_id, s) ← read_external_codec version s
      .ok (.external block_content_id, s)
  | .huffman => do
      let ((alphabet, bit_lens), s) ← read_huffman_codec version s
      .ok (.huffman alphabet bit_lens, s)
  | .constByte => do
      let (value, s) ← read_const_byte_codec version s
      .ok (.constant value, s)
  | _ => .error .invalidData

/-- Rust `read_integer_encoding`. -/
def read_integer_encoding (version : Version) (src : Bytes) :
    Except Err (IntegerCodec × Bytes) := do
  let (kind, s) ← read_kind version src
  match kind with
  | .external => do
      let (block_content_id, s) ← read_external_codec version s
      .ok (.external block_content_id, s)
  | .golomb => do
      let ((offset, m), s) ← read_golomb_codec version s
      .ok (.golomb offset m, s)
  | .huffman => do
      let ((alphabet, bit_lens), s) ← read_huffman_codec version s
      .ok (.huffman alphabet bit_lens, s)
  | .beta => do
      let ((offset, len), s) ← read_beta_codec version s
      .ok (.beta offset len, s)
  | .subexp => do
      let ((offset, k), s) ← read_subexp_codec version s
      .ok (.subexp offset k, s)
  | .golombRice => do
      let ((offset, log2_m), s) ← read_golomb_rice_codec version s
      .ok (.golombRice offset log2_m, s)
  | .gamma => do
      let (offset, s) ← read_gamma_codec version s
      .ok (.gamma offset, s)
  | .varintUnsigned => do
      let ((block_content_id, offset), s) ← read_varint_codec version s
      .ok (.varintUnsigned block_content_id offset, s)
  | .varintSigned => do
      let ((block_content_id, offset), s) ← read_varint_codec version s
      .ok (.varintSigned block_content_id offset, s)
  | .constInt => do
      let (value, s) ← read_const_int_codec version s
      .ok (.constInt value, s)
  | _ => .error .invalidData

/-- Rust `read_byte_array_length_codec`: two nested sub-encodings inside the
length-prefixed args block. -/
def read_byte_array_length_codec (version : Version) (src : Bytes) :
    Except Err ((IntegerCodec × ByteCodec) × Bytes) := do
  let (args, rest) ← read_array version src
  let (len_encoding, args) ← read_integer_encoding version args
  let (value_encoding, _) ← read_byte_encoding version args
  .ok ((len_encoding, value_encoding), rest)

/-- Rust `read_byte_array_stop_codec`. -/
def read_byte_array_stop_codec (version : Version) (src : Bytes) :
    Except Err ((Nat × Int) × Bytes) := do
  let (args, rest) ← read_array version src
  match args with
  | [] => .error .unexpectedEof
  | stop_byte :: args => do
      let (block_content_id, _) ← read_unsigned_int version args
      .ok ((stop_byte, block_content_id), rest)

/-- Rust `read_byte_array_encoding`. -/
def read_byte_array_encoding (version : Version) (src : Bytes) :
    Except Err (ByteArrayCodec × Bytes) := do
  let (kind, s) ← read_kind version src
  match kind with
  | .byteArrayLength => do
      let ((len_encoding, value_encoding), s) ←
        read_byte_array_length_codec version s
      .ok (.byteArrayLength len_encoding value_encoding, s)
  | .byteArrayStop => do
      let ((stop_byte, block_content_id), s) ←
        read_byte_array_stop_codec version s
      .ok (.byteArrayStop stop_byte block_content_id, s)
  | _ => .error .invalidData

/-- The `Kind` each of the numbers 41–44 names. -/
def v4OnlyKind (n : Int) : Kind :=
  if n = 41 then .varintUnsigned
  else if n = 42 then .varintSigned
  else if n = 43 then .constByte
  else .constInt

/-! ## Claim C4 -/

/-- C4: for every input byte stream and every version strictly below 4.0, if
the serialized encoding kind decodes to 41, 42, 43, or 44 (VarintUnsigned,
VarintSigned, ConstByte, ConstInt), then `read_kind` — and hence
`read_integer_encoding`, `read_byte_encoding`, and
`read_byte_array_encoding` — fails with an `InvalidData` error; at version
4.0 these kinds are accepted (`read_kind` succeeds). -/
theorem v4_only_kinds_rejected_below_v4 (version : Version) (src rest : Bytes)
    (n : Int)
    (hv : Version.ltV version Version.V4_0 = true)
    (hr : read_unsigned_int version src = .ok (n, rest))
    (hn : n = 41 ∨ n = 42 ∨ n = 43 ∨ n = 44)
    (src4 rest4 : Bytes) (n4 : Int)
    (hr4 : read_unsigned_int Version.V4_0 src4 = .ok (n4, rest4))
    (hn4 : n4 = 41 ∨ n4 = 42 ∨ n4 = 43 ∨ n4 = 44) :
    read_kind version src = .error .invalidData ∧
    read_integer_encoding version src = .error .invalidData ∧
    read_byte_encoding version src = .error .invalidData ∧
    read_byte_array_encoding version src = .error .invalidData ∧
    read_kind Version.V4_0 src4 = .ok (v4OnlyKind n4, rest4) := by
  have hkind : read_kind version src = .error .invalidData := by
    unfold read_kind
    rw [hr, except_ok_bind]
    rcases hn with rfl | rfl | rfl | rfl <;>
      simp [pure, Except.pure, except_ok_bind, hv]
  refine ⟨hkind, ?_, ?_, ?_, ?_⟩
  · unfold read_integer_encoding
    rw [hkind, except_error_bind]
  · unfold read_byte_encoding
    rw [hkind, except_error_bind]
  · unfold read_byte_array_encoding
    rw [hkind, except_error_bind]
  · unfold read_kind
    rw [hr4, except_ok_bind]
    rcases hn4 with rfl | rfl | rfl | rfl <;>
      simp [pure, Except.pure, except_ok_bind, v4OnlyKind, Version.ltV,
        Version.V4_0]

/-- C4 witness: at version 3.0, the single kind bytes 41–44 each make
`read_kind` and the three encoding readers fail with `InvalidData`, while at
version 4.0 the kind byte 41 reads as `VarintUnsigned`. -/
theorem v4_only_kinds_rejected_below_v4_witness :
    read_kind Version.V3_0 [41] = .error .invalidData ∧
    read_integer_encoding Version.V3_0 [41] = .error .invalidData ∧
    read_byte_encoding Version.V3_0 [41] = .error .invalidData ∧
    read_byte_array_encoding Version.V3_0 [41] = .error .invalidData ∧
    read_kind Version.V4_0 [41] = .ok (.varintUnsigned, []) := by
  have h := v4_only_kinds_rejected_below_v4 Version.V3_0 [41] [] 41
    (by decide) (by decide) (Or.inl rfl)
    [41] [] 41 (by decide) (Or.inl rfl)
  exact h

/-! ## Data-series encodings
(`container/compression_header/data_series_encodings.rs`) -/

/-- The 28 canonical data series, in declaration order
(`BF CF RI RL AP RG RN MF NS NP TS NF TL FN FC FP DL BB QQ BS IN RS PD HC SC
MQ BA QS`). -/
inductive DataSeries
  | bamFlags
  | cramFlags
  | referenceSequenceIds
  | readLengths
  | alignmentStarts
  | readGroupIds
  | names
  | mateFlags
  | mateReferenceSequenceIds
  | mateAlignmentStarts
  | templateLengths
  | mateDistances
  | tagSetIds
  | featureCounts
  | featureCodes
  | featurePositionDeltas
  | deletionLengths
  | stretchesOfBases
  | stretchesOfQualityScores
  | baseSubstitutionCodes
  | insertionBases
  | referenceSkipLengths
  | paddingLengths
  | hardClipLengths
  | softClipBases
  | mappingQualities
  | bases
  | qualityScores
  deriving DecidableEq, Repr

/-- Modelled from the spec: `block::ContentId::from(DataSeries)` (the
`container/block` module is not in the tree): "every data series gets a
canonical content-id (a stable 1-based dense integer derived from its enum
position)". Pinned by the in-tree writer test, which pairs `BamFlags ↦ 1`,
`CramFlags ↦ 2`, `ReadLengths ↦ 4`, `AlignmentStarts ↦ 5`,
`ReadGroupIds ↦ 6`, `TagSetIds ↦ 13`. -/
def contentId : DataSeries → Int
  | .bamFlags => 1
  | .cramFlags => 2
  | .referenceSequenceIds => 3
  | .readLengths => 4
  | .alignmentStarts => 5
  | .readGroupIds => 6
  | .names => 7
  | .mateFlags => 8
  | .mateReferenceSequenceIds => 9
  | .mateAlignmentStarts => 10
  | .templateLengths => 11
  | .mateDistances => 12
  | .tagSetIds => 13
  | .featureCounts => 14
  | .featureCodes => 15
  | .featurePositionDeltas => 16
  | .deletionLengths => 17
  | .stretchesOfBases => 18
  | .stretchesOfQualityScores => 19
  | .baseSubstitutionCodes => 20
  | .insertionBases => 21
  | .referenceSkipLengths => 22
  | .paddingLengths => 23
  | .hardClipLengths => 24
  | .softClipBases => 25
  | .mappingQualities => 26
  | .bases => 27
  | .qualityScores => 28

/-- Rust `DataSeriesEncodings`: the 28-slot optional encoding table. -/
structure DataSeriesEncodings where
  bam_flags : Option IntegerCodec
  cram_flags : Option IntegerCodec
  reference_sequence_ids : Option IntegerCodec
  read_lengths : Option IntegerCodec
  alignment_starts : Option IntegerCodec
  read_group_ids : Option IntegerCodec
  names : Option ByteArrayCodec
  mate_flags : Option IntegerCodec
  mate_reference_sequence_ids : Option IntegerCodec
  mate_alignment_starts : Option IntegerCodec
  template_lengths : Option IntegerCodec
  mate_distances : Option IntegerCodec
  tag_set_ids : Option IntegerCodec
  feature_counts : Option IntegerCodec
  feature_codes : Option ByteCodec
  feature_position_deltas : Option IntegerCodec
  deletion_lengths : Option IntegerCodec
  stretches_of_bases : Option ByteArrayCodec
  stretches_of_quality_scores : Option ByteArrayCodec
  base_substitution_codes : Option ByteCodec
  insertion_bases : Option ByteArrayCodec
  reference_skip_lengths : Option IntegerCodec
  padding_lengths : Option IntegerCodec
  hard_clip_lengths : Option IntegerCodec
  soft_clip_bases : Option ByteArrayCodec
  mapping_qualities : Option IntegerCodec
  bases : Option ByteCodec
  quality_scores : Option ByteCodec
  deriving DecidableEq, Repr

/-- Rust `DataSeriesEncodings::init_legacy` (versions < 4.0): every integer and
byte series `External` at its canonical content id, byte-array series
`ByteArrayStop 0x00` except `StretchesOfQualityScores`, which is
`ByteArrayLength` with both sub-encodings at its content id. -/
def initLegacy : DataSeriesEncodings :=
  { bam_flags := some (.external (contentId .bamFlags))
    cram_flags := some (.external (contentId .cramFlags))
    reference_sequence_ids := some (.external (contentId .referenceSequenceIds))
    read_lengths := some (.external (contentId .readLengths))
    alignment_starts := some (.external (contentId .alignmentStarts))
    read_group_ids := some (.external (contentId .readGroupIds))
    names := some (.byteArrayStop 0x00 (contentId .names))
    mate_flags := some (.external (contentId .mateFlags))
    mate_reference_sequence_ids :=
      some (.external (contentId .mateReferenceSequenceIds))
    mate_alignment_starts := some (.external (contentId .mateAlignmentStarts))
    template_lengths := some (.external (contentId .templateLengths))
    mate_distances := some (.external (contentId .mateDistances))
    tag_set_ids := some (.external (contentId .tagSetIds))
    feature_counts := some (.external (contentId .featureCounts))
    feature_codes := some (.external (contentId .featureCodes))
    feature_position_deltas :=
      some (.external (contentId .featurePositionDeltas))
    deletion_lengths := some (.external (contentId .deletionLengths))
    stretches_of_bases := some (.byteArrayStop 0x00 (contentId .stretchesOfBases))
    stretches_of_quality_scores := some (.byteArrayLength
      (.external (contentId .stretchesOfQualityScores))
      (.external (contentId .stretchesOfQualityScores)))
    base_substitution_codes :=
      some (.external (contentId .baseSubstitutionCodes))
    insertion_bases := some (.byteArrayStop 0x00 (contentId .insertionBases))
    reference_skip_lengths := some (.external (contentId .referenceSkipLengths))
    padding_lengths := some (.external (contentId .paddingLengths))
    hard_clip_lengths := some (.external (contentId .hardClipLengths))
    soft_clip_bases := some (.byteArrayStop 0x00 (contentId .softClipBases))
    mapping_qualities := some (.external (contentId .mappingQualities))
    bases := some (.external (contentId .bases))
    quality_scores := some (.external (contentId .qualityScores)) }

/-- Rust `DataSeriesEncodings::varint_unsigned`. -/
def varintUnsignedOf (series : DataSeries) : IntegerCodec :=
  .varintUnsigned (contentId series) 0

/-- Rust `DataSeriesEncodings::varint_signed`. -/
def varintSignedOf (series : DataSeries) : IntegerCodec :=
  .varintSigned (contentId series) 0

/-- Rust `DataSeriesEncodings::init_v4` (version ≥ 4.0). -/
def initV4 : DataSeriesEncodings :=
  { bam_flags := some (varintUnsignedOf .bamFlags)
    cram_flags := some (varintUnsignedOf .cramFlags)
    reference_sequence_ids := some (varintSignedOf .referenceSequenceIds)
    read_lengths := some (varintUnsignedOf .readLengths)
    alignment_starts := some (varintSignedOf .alignmentStarts)
    read_group_ids := some (varintSignedOf .readGroupIds)
    names := some (.byteArrayStop 0x00 (contentId .names))
    mate_flags := some (varintUnsignedOf .mateFlags)
    mate_reference_sequence_ids :=
      some (varintSignedOf .mateReferenceSequenceIds)
    mate_alignment_starts := some (varintSignedOf .mateAlignmentStarts)
    template_lengths := some (varintSignedOf .templateLengths)
    mate_distances := some (varintSignedOf .mateDistances)
    tag_set_ids := some (varintUnsignedOf .tagSetIds)
    feature_counts := some (varintUnsignedOf .featureCounts)
    feature_codes := some (.external (contentId .featureCodes))
    feature_position_deltas := some (varintUnsignedOf .featurePositionDeltas)
    deletion_lengths := some (varintUnsignedOf .deletionLengths)
    stretches_of_bases := some (.byteArrayStop 0x00 (contentId .stretchesOfBases))
    stretches_of_quality_scores := some (.byteArrayLength
      (varintUnsignedOf .stretchesOfQualityScores)
      (.external (contentId .stretchesOfQualityScores)))
    base_substitution_codes :=
      some (.external (contentId .baseSubstitutionCodes))
    insertion_bases := some (.byteArrayStop 0x00 (contentId .insertionBases))
    reference_skip_lengths := some (varintUnsignedOf .referenceSkipLengths)
    padding_lengths := some (varintUnsignedOf .paddingLengths)
    hard_clip_lengths := some (varintUnsignedOf .hardClipLengths)
    soft_clip_bases := some (.byteArrayStop 0x00 (contentId .softClipBases))
    mapping_qualities := some (varintUnsignedOf .mappingQualities)
    bases := some (.external (contentId .bases))
    quality_scores := some (.external (contentId .qualityScores)) }

/-- Rust `DataSeriesEncodings::init`. -/
def dataSeriesEncodingsInit (version : Version) : DataSeriesEncodings :=
  if Version.le Version.V4_0 version then initV4 else initLegacy

/-- The `clear_if_unused!` macro body: drop the field when its series'
canonical content id is not in the used set. -/
def clearIfUnused {α : Type} (used : List Int) (series : DataSeries)
    (x : Option α) : Option α :=
  if ¬ used.contains (contentId series) = true then none else x

/-- Rust `DataSeriesEncodings::retain_used_content_ids`. -/
def retain_used_content_ids (used : List Int) (e : DataSeriesEncodings) :
    DataSeriesEncodings :=
  { bam_flags := clearIfUnused used .bamFlags e.bam_flags
    cram_flags := clearIfUnused used .cramFlags e.cram_flags
    reference_sequence_ids :=
      clearIfUnused used .referenceSequenceIds e.reference_sequence_ids
    read_lengths := clearIfUnused used .readLengths e.read_lengths
    alignment_starts := clearIfUnused used .alignmentStarts e.alignment_starts
    read_group_ids := clearIfUnused used .readGroupIds e.read_group_ids
    names := clearIfUnused used .names e.names
    mate_flags := clearIfUnused used .mateFlags e.mate_flags
    mate_reference_sequence_ids :=
      clearIfUnused used .mateReferenceSequenceIds e.mate_reference_sequence_ids
    mate_alignment_starts :=
      clearIfUnused used .mateAlignmentStarts e.mate_alignment_starts
    template_lengths := clearIfUnused used .templateLengths e.template_lengths
    mate_distances := clearIfUnused used .mateDistances e.mate_distances
    tag_set_ids := clearIfUnused used .tagSetIds e.tag_set_ids
    feature_counts := clearIfUnused used .featureCounts e.feature_counts
    feature_codes := clearIfUnused used .featureCodes e.feature_codes
    feature_position_deltas :=
      clearIfUnused used .featurePositionDeltas e.feature_position_deltas
    deletion_lengths := clearIfUnused used .deletionLengths e.deletion_lengths
    stretches_of_bases :=
      clearIfUnused used .stretchesOfBases e.stretches_of_bases
    stretches_of_quality_scores :=
      clearIfUnused used .stretchesOfQualityScores e.stretches_of_quality_scores
    base_substitution_codes :=
      clearIfUnused used .baseSubstitutionCodes e.base_substitution_codes
    insertion_bases := clearIfUnused used .insertionBases e.insertion_bases
    reference_skip_lengths :=
      clearIfUnused used .referenceSkipLengths e.reference_skip_lengths
    padding_lengths := clearIfUnused used .paddingLengths e.padding_lengths
    hard_clip_lengths := clearIfUnused used .hardClipLengths e.hard_clip_lengths
    soft_clip_bases := clearIfUnused used .softClipBases e.soft_clip_bases
    mapping_qualities := clearIfUnused used .mappingQualities e.mapping_qualities
    bases := clearIfUnused used .bases e.bases
    quality_scores := clearIfUnused used .qualityScores e.quality_scores }

theorem clearIfUnused_eq {α : Type} (used : List Int) (series : DataSeries)
    (x : Option α) :
    clearIfUnused used series x =
      if used.contains (contentId series) = true then x else none := by
  unfold clearIfUnused
  by_cases h : used.contains (contentId series) = true <;> simp [h]

/-! ## Claim C6 -/

/-- C6: for every encoding table produced by `DataSeriesEncodings::init` and
every set `U` of content ids (as collected from the external data blocks of a
container's slices), `retain_used_content_ids U` sets to `None` exactly those
of the 28 series whose canonical content id is not a member of `U`, and
leaves the encoding of every series whose canonical content id is in `U`
unchanged. -/
theorem retain_used_content_ids_prunes_by_canonical_id
    (used : List Int) (version : Version) :
    (retain_used_content_ids used (dataSeriesEncodingsInit version)).bam_flags =
      (if used.contains (contentId .bamFlags) = true
        then (dataSeriesEncodingsInit version).bam_flags else none) ∧
    (retain_used_content_ids used (dataSeriesEncodingsInit version)).cram_flags =
      (if used.contains (contentId .cramFlags) = true
        then (dataSeriesEncodingsInit version).cram_flags else none) ∧
    (retain_used_content_ids used
        (dataSeriesEncodingsInit version)).reference_sequence_ids =
      (if used.contains (contentId .referenceSequenceIds) = true
        then (dataSeriesEncodingsInit version).reference_sequence_ids else none) ∧
    (retain_used_content_ids used (dataSeriesEncodingsInit version)).read_lengths =
      (if used.contains (contentId .readLengths) = true
        then (dataSeriesEncodingsInit version).read_lengths else none) ∧
    (retain_used_content_ids used
        (dataSeriesEncodingsInit version)).alignment_starts =
      (if used.contains (contentId .alignmentStarts) = true
        then (dataSeriesEncodingsInit version).alignment_starts else none) ∧
    (retain_used_content_ids used
        (dataSeriesEncodingsInit version)).read_group_ids =
      (if used.contains (contentId .readGroupIds) = true
        then (dataSeriesEncodingsInit version).read_group_ids else none) ∧
    (retain_used_content_ids used (dataSeriesEncodingsInit version)).names =
      (if used.contains (contentId .names) = true
        then (dataSeriesEncodingsInit version).names else none) ∧
    (retain_used_content_ids used (dataSeriesEncodingsInit version)).mate_flags =
      (if used.contains (contentId .mateFlags) = true
        then (dataSeriesEncodingsInit version).mate_flags else none) ∧
    (retain_used_content_ids used
        (dataSeriesEncodingsInit version)).mate_reference_sequence_ids =
      (if used.contains (contentId .mateReferenceSequenceIds) = true
        then (dataSeriesEncodingsInit version).mate_reference_sequence_ids
        else none) ∧
    (retain_used_content_ids used
        (dataSeriesEncodingsInit version)).mate_alignment_starts =
      (if used.contains (contentId .mateAlignmentStarts) = true
        then (dataSeriesEncodingsInit version).mate_alignment_starts else none) ∧
    (retain_used_content_ids used
        (dataSeriesEncodingsInit version)).template_lengths =
      (if used.contains (contentId .templateLengths) = true
        then (dataSeriesEncodingsInit version).template_lengths else none) ∧
    (retain_used_content_ids used
        (dataSeriesEncodingsInit version)).mate_distances =
      (if used.contains (contentId .mateDistances) = true
        then (dataSeriesEncodingsInit version).mate_distances else none) ∧
    (retain_used_content_ids used (dataSeriesEncodingsInit version)).tag_set_ids =
      (if used.contains (contentId .tagSetIds) = true
        then (dataSeriesEncodingsInit version).tag_set_ids else none) ∧
    (retain_used_content_ids used
        (dataSeriesEncodingsInit version)).feature_counts =
      (if used.contains (contentId .featureCounts) = true
        then (dataSeriesEncodingsInit version).feature_counts else none) ∧
    (retain_used_content_ids used
        (dataSeriesEncodingsInit version)).feature_codes =
      (if used.contains (contentId .featureCodes) = true
        then (dataSeriesEncodingsInit version).feature_codes else none) ∧
    (retain_used_content_ids used
        (dataSeriesEncodingsInit version)).feature_position_deltas =
      (if used.contains (contentId .featurePositionDeltas) = true
        then (dataSeriesEncodingsInit version).feature_position_deltas else none) ∧
    (retain_used_content_ids used
        (dataSeriesEncodingsInit version)).deletion_lengths =
      (if used.contains (contentId .deletionLengths) = true
        then (dataSeriesEncodingsInit version).deletion_lengths else none) ∧
    (retain_used_content_ids used
        (dataSeriesEncodingsInit version)).stretches_of_bases =
      (if used.contains (contentId .stretchesOfBases) = true
        then (dataSeriesEncodingsInit version).stretches_of_bases else none) ∧
    (retain_used_content_ids used
        (dataSeriesEncodingsInit version)).stretches_of_quality_scores =
      (if used.contains (contentId .stretchesOfQualityScores) = true
        then (dataSeriesEncodingsInit version).stretches_of_quality_scores
        else none) ∧
    (retain_used_content_ids used
        (dataSeriesEncodingsInit version)).base_substitution_codes =
      (if used.contains (contentId .baseSubstitutionCodes) = true
        then (dataSeriesEncodingsInit version).base_substitution_codes
        else none) ∧
    (retain_used_content_ids used
        (dataSeriesEncodingsInit version)).insertion_bases =
      (if used.contains (contentId .insertionBases) = true
        then (dataSeriesEncodingsInit version).insertion_bases else none) ∧
    (retain_used_content_ids used
        (dataSeriesEncodingsInit version)).reference_skip_lengths =
      (if used.contains (contentId .referenceSkipLengths) = true
        then (dataSeriesEncodingsInit version).reference_skip_lengths else none) ∧
    (retain_used_content_ids used
        (dataSeriesEncodingsInit version)).padding_lengths =
      (if used.contains (contentId .paddingLengths) = true
        then (dataSeriesEncodingsInit version).padding_lengths else none) ∧
    (retain_used_content_ids used
        (dataSeriesEncodingsInit version)).hard_clip_lengths =
      (if used.contains (contentId .hardClipLengths) = true
        then (dataSeriesEncodingsInit version).hard_clip_lengths else none) ∧
    (retain_used_content_ids used
        (dataSeriesEncodingsInit version)).soft_clip_bases =
      (if used.contains (contentId .softClipBases) = true
        then (dataSeriesEncodingsInit version).soft_clip_bases else none) ∧
    (retain_used_content_ids used
        (dataSeriesEncodingsInit version)).mapping_qualities =
      (if used.contains (contentId .mappingQualities) = true
        then (dataSeriesEncodingsInit version).mapping_qualities else none) ∧
    (retain_used_content_ids used (dataSeriesEncodingsInit version)).bases =
      (if used.contains (contentId .bases) = true
        then (dataSeriesEncodingsInit version).bases else none) ∧
    (retain_used_content_ids used
        (dataSeriesEncodingsInit version)).quality_scores =
      (if used.contains (contentId .qualityScores) = true
        then (dataSeriesEncodingsInit version).quality_scores else none) := by
  refine ⟨?_, ?_, ?_, ?_, ?_, ?_, ?_, ?_, ?_, ?_, ?_, ?_, ?_, ?_, ?_, ?_, ?_,
    ?_, ?_, ?_, ?_, ?_, ?_, ?_, ?_, ?_, ?_, ?_⟩ <;>
    exact clearIfUnused_eq _ _ _

/-! ## fqzcomp quality quantization table (`codecs/fqzcomp/encode.rs`) -/

/-- Rust `build_quality_table`: 256 entries; `max_bin = min(2^q_bits - 1, 255)`;
all zeros when `max_q == 0`, otherwise entry `i` is
`min(i * max_bin / max_q, max_bin)` computed in `u16` (no overflow there:
`i, max_bin ≤ 255`). The source shift `1u16 << q_bits` is defined for
`q_bits < 16`; the in-tree caller always passes `q_bits = 9`. -/
def build_quality_table (max_q q_bits : Nat) : List Nat :=
  let max_bin := min (2 ^ q_bits - 1) 255
  if max_q = 0 then List.replicate 256 0
  else (List.range 256).map fun i => min (i * max_bin / max_q) max_bin

theorem build_quality_table_getD (max_q q_bits i : Nat) (hi : i < 256) :
    (build_quality_table max_q q_bits).getD i 0 =
      if max_q = 0 then 0
      else min (i * min (2 ^ q_bits - 1) 255 / max_q) (min (2 ^ q_bits - 1) 255) := by
  unfold build_quality_table
  by_cases h : max_q = 0
  · simp only [h, if_true, ite_true, List.getD_eq_getElem?_getD,
      List.getElem?_getD_replicate_default_eq]
  · simp only [h, if_false, List.getD_eq_getElem?_getD, List.getElem?_map,
      List.getElem?_range, hi]
    simp [hi]

/-! ## Claim C8 -/

/-- C8: for every `max_q` and `q_bits` (with `q_bits < 16`, the domain of the
source's `u16` shift), the fqzcomp quality quantization table built by
`build_quality_table` has 256 entries and is non-decreasing
(`q_tab[i] ≤ q_tab[i+1]` for every `i < 255`); for `max_q ≥ 1` each entry
equals `min(max_bin, i * max_bin / max_q)` with
`max_bin = min(2^q_bits - 1, 255)` (and for `max_q = 0` every entry is 0). -/
theorem build_quality_table_monotone_and_formula (max_q q_bits i : Nat)
    (hq : q_bits < 16) (hi : i < 255) :
    (build_quality_table max_q q_bits).length = 256 ∧
    (build_quality_table max_q q_bits).getD i 0 ≤
      (build_quality_table max_q q_bits).getD (i + 1) 0 ∧
    build_quality_table max_q q_bits =
      (if max_q = 0 then List.replicate 256 0
       else (List.range 256).map fun k =>
         min (k * min (2 ^ q_bits - 1) 255 / max_q) (min (2 ^ q_bits - 1) 255)) := by
  refine ⟨?_, ?_, rfl⟩
  · unfold build_quality_table
    by_cases h : max_q = 0 <;> simp [h]
  · rw [build_quality_table_getD max_q q_bits i (by omega),
      build_quality_table_getD max_q q_bits (i + 1) (by omega)]
    by_cases h : max_q = 0
    · simp [h]
    · simp only [h, if_false]
      exact min_le_min
        (Nat.div_le_div_right (Nat.mul_le_mul_right _ (Nat.le_succ i))) le_rfl

/-- C8 witness: at `max_q = 45`, `q_bits = 9`, the table has 256 entries, is
non-decreasing at index 0, and matches the binning formula. -/
theorem build_quality_table_witness :
    (build_quality_table 45 9).length = 256 ∧
    (build_quality_table 45 9).getD 0 0 ≤ (build_quality_table 45 9).getD 1 0 ∧
    build_quality_table 45 9 =
      (if (45 : Nat) = 0 then List.replicate 256 0
       else (List.range 256).map fun k =>
         min (k * min (2 ^ 9 - 1) 255 / 45) (min (2 ^ 9 - 1) 255)) := by
  exact build_quality_table_monotone_and_formula 45 9 0 (by decide) (by decide)

/-! ## BAM query iterator (`noodles-bam/src/reader/query.rs`)

The underlying reader (`R: Read + Seek`) is abstracted: a seek table gives,
for every virtual position, the stream of read outcomes from that position;
`read_record` consumes one outcome and updates the reader's virtual position.
The record model carries exactly the fields the iterator consults
(`reference_sequence_id`, `position`, `cigar().reference_len()`).
-/

/-- The fields of a BAM record the query filter reads. -/
structure RecordM where
  refId : Option Int
  pos : Int
  refLen : Nat
  deriving DecidableEq, Repr

/-- One outcome of `read_record`: a record (with the reader's virtual
position after the read), an end-of-stream (zero bytes read), or an error. -/
inductive ReadEvent
  | readRec (r : RecordM) (posAfter : Nat)
  | readEof
  | readErr
  deriving DecidableEq, Repr

/-- Rust `Chunk { start, end }` over virtual positions; `stop` is the source's
`end` field. -/
structure Chunk where
  start : Nat
  stop : Nat
  deriving DecidableEq, Repr

/-- Rust `State { Seek, Read, End }`. -/
inductive QState
  | seek
  | read
  | done
  deriving DecidableEq, Repr

/-- The `Query` iterator state, with the abstract reader inlined. -/
structure QueryState where
  seekTable : Nat → List ReadEvent
  events : List ReadEvent
  pos : Nat
  chunks : List Chunk
  refId : Nat
  qstart : Nat
  qstop : Nat
  i : Nat
  currentChunk : Chunk
  state : QState

/-- Rust `i32` sign-extended to `i64` and bitcast to `u64`
(`i32::from(record.position()) as u64`, `reference_sequence_id as usize`). -/
def u64OfI32 (n : Int) : Nat := (n % 2 ^ 64).toNat

/-- Rust `in_interval`: closed intervals `[a_start, a_end]` and
`[b_start, b_end]` intersect. -/
def inIntervalB (a_start a_end b_start b_end : Nat) : Bool :=
  a_start ≤ b_end && b_start ≤ a_end

/-- Rust `Reader::seek` on the abstract reader. -/
def seekReader (q : QueryState) (p : Nat) : QueryState :=
  { q with pos := p, events := q.seekTable p }

/-- Rust `Query::next_chunk`: `false` when the chunk list is exhausted, else seek
to the next chunk's start and advance `i`. (Failures of the underlying seek
are outside this abstraction.) -/
def nextChunk (q : QueryState) : Bool × QueryState :=
  if h : q.i < q.chunks.length then
    let c := q.chunks.get ⟨q.i, h⟩
    let q := seekReader q c.start
    (true, { q with currentChunk := c, i := q.i + 1 })
  else (false, q)

/-- Rust `Query::read_record`: `None` for a zero-byte read (`Ok(0)`), otherwise
the record or error, consuming one reader outcome. -/
def readRecordEv (q : QueryState) : Option (Except Err RecordM) × QueryState :=
  match q.events with
  | [] => (none, q)
  | .readRec r p :: es => (some (.ok r), { q with events := es, pos := p })
  | .readEof :: es => (none, { q with events := es })
  | .readErr :: es => (some (.error .invalidData), { q with events := es })

/-- The outcome of one iteration of the `loop` in `Query::next`. -/
inductive StepRes
  | yields (r : Except Err RecordM) (q : QueryState)
  | continues (q : QueryState)
  | stops

/-- One iteration of the `loop` in `<Query as Iterator>::next`. In `Read`,
the chunk-boundary check (`virtual_position() >= current_chunk.end()`) runs
right after the read and only *schedules* the transition to `Seek`; the
just-read record is still matched against the region filter and yielded on a
match. -/
def queryStep (q : QueryState) : StepRes :=
  match q.state with
  | .seek =>
      let (has_next_chunk, q') := nextChunk q
      .continues { q' with state := if has_next_chunk then .read else .done }
  | .done => .stops
  | .read =>
      let (res, q1) := readRecordEv q
      match res with
      | none => .continues { q1 with state := .seek }
      | some result =>
          let q2 :=
            if q1.currentChunk.stop ≤ q1.pos then { q1 with state := .seek }
            else q1
          match result with
          | .error e => .yields (.error e) q2
          | .ok record =>
              match record.refId with
              | none => .continues q2
              | some rsid =>
                  let record_start := u64OfI32 record.pos
                  let record_end := record_start + record.refLen - 1
                  if u64OfI32 rsid == q.refId &&
                      inIntervalB record_start record_end q.qstart q.qstop then
                    .yields (.ok record) q2
                  else .continues q2

/-- Rust `Query::next`: iterate `queryStep` until a yield or termination
(fuel-bounded; the source loop has no bound, but every iteration consumes a
chunk or a reader outcome). -/
def queryNext : Nat → QueryState → Option (Except Err RecordM × QueryState)
  | 0, _ => none
  | fuel + 1, q =>
      match queryStep q with
      | .yields r q' => some (r, q')
      | .continues q' => queryNext fuel q'
      | .stops => none

/-! ## Claim C7 -/

/-- C7: in the query iterator's `Read` state, when a record is read
successfully and the reader's virtual position is then at or beyond the
current chunk's end, the just-read record is still checked against the
region filter and yielded if it matches (reference-sequence id equal to the
query's and alignment interval intersecting the query interval); the
transition to `Seek` takes effect only on the next call (the yielded state
is `Seek`), so a record whose read crossed the chunk boundary is never
dropped. A read returning zero bytes transitions to `Seek`. -/
theorem query_boundary_record_still_yielded
    (fuel : Nat) (q : QueryState) (r : RecordM) (p : Nat)
    (es : List ReadEvent) (rsid : Int)
    (hstate : q.state = .read)
    (hev : q.events = .readRec r p :: es)
    (hcross : q.currentChunk.stop ≤ p)
    (hrid : r.refId = some rsid)
    (hmatch : (u64OfI32 rsid == q.refId &&
      inIntervalB (u64OfI32 r.pos) (u64OfI32 r.pos + r.refLen - 1)
        q.qstart q.qstop) = true)
    (q2 : QueryState) (hstate2 : q2.state = .read) (hev2 : q2.events = []) :
    queryNext (fuel + 1) q =
      some (.ok r, { q with events := es, pos := p, state := QState.seek }) ∧
    queryStep q2 = .continues { q2 with state := QState.seek } := by
  constructor
  · have hstep : queryStep q =
        .yields (.ok r) { q with events := es, pos := p, state := QState.seek } := by
      unfold queryStep
      rw [hstate]
      unfold readRecordEv
      rw [hev]
      simp only [hrid, if_pos hcross, hmatch, if_true]
    show queryNext (fuel + 1) q = _
    unfold queryNext
    rw [hstep]
  · unfold queryStep
    rw [hstate2]
    unfold readRecordEv
    rw [hev2]
    simp [hev2]

/-- A concrete record for the C7 witness: reference sequence 3, alignment
start 15, reference length 2. -/
def cRecord : RecordM := { refId := some 3, pos := 15, refLen := 2 }

/-- A concrete `Read`-state query for the C7 witness: querying reference 3
over `[10, 20]`, current chunk ending at virtual position 50, one remaining
read outcome whose record read lands at position 100 (past the chunk end). -/
def cQueryQ : QueryState :=
  { seekTable := fun _ => []
    events := [.readRec cRecord 100]
    pos := 0
    chunks := []
    refId := 3
    qstart := 10
    qstop := 20
    i := 0
    currentChunk := { start := 0, stop := 50 }
    state := .read }

/-- The C7 witness query with no remaining reader outcome. -/
def cQueryQ2 : QueryState := { cQueryQ with events := [] }

/-- C7 witness: a concrete `Read`-state query whose single remaining reader
outcome is a matching record read that lands past the chunk end; the record
is yielded and the resulting state is `Seek`. A `Read`-state query with no
remaining outcome transitions to `Seek`. -/
theorem query_boundary_record_still_yielded_witness :
    queryNext 1 cQueryQ =
      some (.ok cRecord,
        { cQueryQ with events := [], pos := 100, state := QState.seek }) ∧
    queryStep cQueryQ2 = .continues { cQueryQ2 with state := QState.seek } := by
  exact query_boundary_record_still_yielded 0 cQueryQ cRecord 100 [] 3
    rfl rfl (by decide) rfl (by decide) cQueryQ2 rfl rfl

/-! ## Bit streams and the Golomb codec
(`container/compression_header/encoding/codec/integer.rs`)

The bit reader/writer (`io/{bit_reader,bit_writer}.rs`) are not part of the
source tree; they are modelled from the spec: "MSB-first bit streams over a
byte buffer. Reader exposes `read_bit → 0|1` and `read_i32(n) → i32`
(`n ≤ 32`, zero-extended); writer exposes `write_u32(value, n_bits)`."
A bit stream is a `List Bool`.
-/

/-- Modelled from the spec: `BitReader::read_bit`. -/
def readBit : List Bool → Except Err (Nat × List Bool)
  | [] => .error .unexpectedEof
  | b :: rest => .ok (if b then 1 else 0, rest)

/-- Modelled from the spec: the accumulator loop of `BitReader::read_i32`,
MSB-first and zero-extended. -/
def readBitsAcc (acc : Nat) : Nat → List Bool → Except Err (Nat × List Bool)
  | 0, bits => .ok (acc, bits)
  | _ + 1, [] => .error .unexpectedEof
  | w + 1, b :: rest => readBitsAcc (2 * acc + if b then 1 else 0) w rest

/-- Modelled from the spec: `BitReader::read_i32(n)`. -/
def read_i32_bits (n : Nat) (bits : List Bool) : Except Err (Nat × List Bool) :=
  readBitsAcc 0 n bits

/-- Modelled from the spec: `BitWriter::write_u32(v, w)` — the low `w` bits
of `v`, most significant first. -/
def natBits : Nat → Nat → List Bool
  | _, 0 => []
  | v, w + 1 => natBits (v / 2) w ++ [decide (v % 2 = 1)]

/-- The `while read_bit == 0 { q += 1 }` unary prefix of the Golomb
decoders. -/
def countZeros : List Bool → Except Err (Nat × List Bool)
  | [] => .error .unexpectedEof
  | false :: rest => do
      let (q, r) ← countZeros rest
      .ok (q + 1, r)
  | true :: rest => .ok (0, rest)

/-- The Golomb arm of `Integer::decode`: reject `m ≤ 0`; read the unary
quotient; `b = 32 - (m - 1).leading_zeros()`; when `b > 0` read `b - 1`
remainder bits and, if the remainder reaches `threshold = 2^b - m`, one
extension bit; finally subtract the offset. -/
def golombDecode (offset m : Int) (bits : List Bool) :
    Except Err (Int × List Bool) :=
  if m ≤ 0 then .error .invalidData
  else do
    let (q, bits) ← countZeros bits
    let b := Nat.size (m - 1).toNat
    if b = 0 then .ok ((q : Int) - offset, bits)
    else do
      let (r, bits) ← read_i32_bits (b - 1) bits
      let threshold : Int := 2 ^ b - m
      if (r : Int) < threshold then .ok ((q : Int) * m + r - offset, bits)
      else do
        let (bit, bits) ← readBit bits
        let r2 : Int := 2 * (r : Int) + (bit : Int)
        .ok ((q : Int) * m + r2 - threshold - offset, bits)

/-- The Golomb arm of `Integer::encode`: reject `m ≤ 0`; narrow the `i64`
value to `i32`; reject `n = value + offset < 0`; emit `n / m` zero bits and
a one bit; when `b > 0` emit `n % m` in `b - 1` bits if it is below
`threshold = 2^b - m`, else `n % m + threshold` in `b` bits. The `i32`
arithmetic is exact under the range hypotheses of the theorem below
(`m ≤ 2^30` keeps `1i32 << b` and the threshold in range). -/
def golombEncode (offset m value : Int) : Except Err (List Bool) :=
  if m ≤ 0 then .error .invalidData
  else if value < -(2 ^ 31) ∨ 2 ^ 31 ≤ value then .error .invalidData
  else
    let n := value + offset
    if n < 0 then .error .invalidData
    else
      let q := n.toNat / m.toNat
      let r := n.toNat % m.toNat
      let b := Nat.size (m - 1).toNat
      .ok (List.replicate q false ++ [true] ++
        (if b = 0 then []
         else
           let threshold := 2 ^ b - m.toNat
           if r < threshold then natBits r (b - 1)
           else natBits (r + threshold) b))

/-- The bit layout stated by the claim: `q = n/m` zero bits, a one bit, then
`r = n%m` in `b-1` bits if `r < threshold`, else `r + threshold` in `b`
bits, where `b = ⌊log₂ m⌋ + [m is not a power of 2]` and
`threshold = 2^b - m`. -/
def golombClaimBits (m n : Nat) : List Bool :=
  let b := Nat.log 2 m + (if 2 ^ Nat.log 2 m = m then 0 else 1)
  let threshold := 2 ^ b - m
  List.replicate (n / m) false ++ [true] ++
    (if n % m < threshold then natBits (n % m) (b - 1)
     else natBits (n % m + threshold) b)

theorem countZeros_replicate (q : Nat) (tail : List Bool) :
    countZeros (List.replicate q false ++ (true :: tail)) = .ok (q, tail) := by
  induction q with
  | zero => rfl
  | succ q ih =>
      rw [List.replicate_succ, List.cons_append]
      show (do
        let (q, r) ← countZeros (List.replicate q false ++ (true :: tail))
        Except.ok (q + 1, r)) = _
      rw [ih]
      rfl

theorem readBitsAcc_natBits (w : Nat) :
    ∀ (u k a : Nat) (rest : List Bool), u < 2 ^ w →
      readBitsAcc a (w + k) (natBits u w ++ rest) =
        readBitsAcc (a * 2 ^ w + u) k rest := by
  induction w with
  | zero =>
      intro u k a rest hu
      interval_cases u
      simp [natBits]
  | succ w ih =>
      intro u k a rest hu
      have h2 : u / 2 < 2 ^ w := by
        rw [Nat.div_lt_iff_lt_mul (by norm_num : (0 : Nat) < 2)]
        calc u < 2 ^ (w + 1) := hu
          _ = 2 ^ w * 2 := by rw [Nat.pow_succ]
      show readBitsAcc a (w + 1 + k)
        ((natBits (u / 2) w ++ [decide (u % 2 = 1)]) ++ rest) = _
      rw [List.append_assoc]
      have hrw : w + 1 + k = w + (k + 1) := by omega
      rw [hrw, ih (u / 2) (k + 1) a ([decide (u % 2 = 1)] ++ rest) h2]
      show readBitsAcc
        (2 * (a * 2 ^ w + u / 2) + if decide (u % 2 = 1) then 1 else 0) k rest = _
      have hbit : (if decide (u % 2 = 1) then 1 else 0) = u % 2 := by
        by_cases h : u % 2 = 1 <;> simp [h] <;> omega
      have : 2 * (a * 2 ^ w + u / 2) + (if decide (u % 2 = 1) then 1 else 0) =
          a * 2 ^ (w + 1) + u := by
        rw [hbit]
        calc 2 * (a * 2 ^ w + u / 2) + u % 2
            = 2 * (a * 2 ^ w) + (2 * (u / 2) + u % 2) := by ring
          _ = 2 * (a * 2 ^ w) + u := by rw [Nat.div_add_mod]
          _ = a * 2 ^ (w + 1) + u := by rw [Nat.pow_succ]; ring
      rw [this]

theorem read_i32_bits_natBits (w u : Nat) (rest : List Bool) (hu : u < 2 ^ w) :
    read_i32_bits w (natBits u w ++ rest) = .ok (u, rest) := by
  have h := readBitsAcc_natBits w u 0 0 rest hu
  simpa [read_i32_bits, readBitsAcc] using h

/-- For `m ≥ 1`, the code's `b = 32 - (m-1).leading_zeros() = (m-1).size`
equals the claim's `⌊log₂ m⌋ + [m not a power of 2]`. -/
theorem size_pred_eq_log_formula (m : Nat) (hm : 1 ≤ m) :
    Nat.size (m - 1) =
      Nat.log 2 m + (if 2 ^ Nat.log 2 m = m then 0 else 1) := by
  rcases eq_or_lt_of_le hm with h1 | h2
  · simp [← h1, Nat.size_zero, Nat.log_one_right]
  · set k := Nat.log 2 m with hk
    have hpow_le : 2 ^ k ≤ m := Nat.pow_log_le_self 2 (by omega)
    have hlt : m < 2 ^ (k + 1) := Nat.lt_pow_succ_log_self (by norm_num) m
    by_cases hp : 2 ^ k = m
    · have hk1 : 1 ≤ k := by
        by_contra h
        have : k = 0 := by omega
        rw [this] at hp
        simp at hp
        omega
      have hsle : Nat.size (m - 1) ≤ k := Nat.size_le.mpr (by omega)
      have hsge : k - 1 < Nat.size (m - 1) := Nat.lt_size.mpr (by
        have : 2 ^ (k - 1) * 2 = 2 ^ k := by
          rw [← Nat.pow_succ]
          congr 1
          omega
        omega)
      simp only [hp, if_true, ite_true, Nat.add_zero]
      omega
    · have hsle : Nat.size (m - 1) ≤ k + 1 := Nat.size_le.mpr (by omega)
      have hsge : k < Nat.size (m - 1) := Nat.lt_size.mpr (by omega)
      simp only [hp, if_false, ite_false]
      omega

/-! ## Claim C5 -/

/-- C5: for every `m > 0` (within `i32` range; `m ≤ 2^30` keeps the source's
`i32` threshold arithmetic exact) and every value with
`n = value + offset ≥ 0` (in `i32` range), Golomb encoding writes `q = n/m`
zero bits, a one bit, then `r = n%m` in `b-1` bits if `r < threshold` and
`r + threshold` in `b` bits otherwise, where
`b = ⌊log₂ m⌋ + [m is not a power of 2]` and `threshold = 2^b - m`; and
decoding inverts this bit layout, returning the original value and leaving
the trailing bits untouched. -/
theorem golomb_encode_layout_decode_inverts
    (offset m value : Int) (rest : List Bool)
    (hm : 0 < m) (hm30 : m ≤ 2 ^ 30)
    (hv1 : -(2 ^ 31) ≤ value) (hv2 : value < 2 ^ 31)
    (hn0 : 0 ≤ value + offset) (hn31 : value + offset < 2 ^ 31) :
    golombEncode offset m value =
      .ok (golombClaimBits m.toNat (value + offset).toNat) ∧
    golombDecode offset m
        (golombClaimBits m.toNat (value + offset).toNat ++ rest) =
      .ok (value, rest) := by
  have hmt : ((m.toNat : Nat) : Int) = m := Int.toNat_of_nonneg hm.le
  have hnt : (((value + offset).toNat : Nat) : Int) = value + offset :=
    Int.toNat_of_nonneg hn0
  have hm1 : 1 ≤ m.toNat := by omega
  have hmm1 : (m - 1).toNat = m.toNat - 1 := by omega
  set m' : Nat := m.toNat with hm'
  set n' : Nat := (value + offset).toNat with hn'
  set b : Nat := Nat.size (m' - 1) with hb'
  have hbsize : Nat.log 2 m' + (if 2 ^ Nat.log 2 m' = m' then 0 else 1) = b :=
    (size_pred_eq_log_formula m' hm1).symm
  have hmlt : m' - 1 < 2 ^ b := Nat.lt_size_self (m' - 1)
  set q : Nat := n' / m' with hq'
  set r : Nat := n' % m' with hr'
  have hrm : r < m' := Nat.mod_lt _ (by omega)
  have hqm : q * m' + r = n' := by
    have h := Nat.div_add_mod n' m'
    rw [hq', hr', Nat.mul_comm]
    exact h
  -- the claimed layout, with the claim's b rewritten to the code's b
  have hclaim : golombClaimBits m' n' =
      List.replicate q false ++ [true] ++
        (if r < 2 ^ b - m' then natBits r (b - 1)
         else natBits (r + (2 ^ b - m')) b) := by
    simp only [golombClaimBits]
    rw [hbsize, ← hq', ← hr']
  have hvalcast : (q : Int) * m + (r : Int) - offset = value := by
    have h1 : ((q * m' + r : Nat) : Int) = ((n' : Nat) : Int) := by
      exact_mod_cast congrArg (fun x : Nat => (x : Int)) hqm
    push_cast at h1
    rw [hmt, hnt] at h1
    rw [h1]
    ring
  constructor
  · -- encoder output is the claimed layout
    unfold golombEncode
    rw [if_neg (by omega), if_neg (by omega), if_neg (by omega)]
    rw [hclaim]
    simp only [hmm1]
    rw [← hm', ← hn', ← hb', ← hq', ← hr']
    by_cases hb0 : b = 0
    · have hm'1 : m' = 1 := by
        have := Nat.size_eq_zero.mp (hb'.symm.trans hb0)
        omega
      have hr0 : r = 0 := by omega
      rw [hb0, hr0, hm'1]
      norm_num [natBits]
    · simp only [hb0, if_false, ite_false]
  · -- decoding the claimed layout returns the value and the trailing bits
    unfold golombDecode
    rw [if_neg (by omega)]
    rw [hclaim]
    by_cases hb0 : b = 0
    · have hm'1 : m' = 1 := by
        have := Nat.size_eq_zero.mp (hb'.symm.trans hb0)
        omega
      have hr0 : r = 0 := by omega
      have hthr : 2 ^ b - m' = 0 := by rw [hb0, hm'1]; norm_num
      rw [hr0, hthr, hb0]
      simp only [Nat.lt_irrefl, if_false, ite_false]
      rw [show natBits (0 + 0) 0 = [] from rfl]
      simp only [List.append_assoc, List.singleton_append, List.append_nil]
      rw [countZeros_replicate q rest, except_ok_bind]
      simp only [hmm1, ← hm', ← hb', hb0, if_true, ite_true]
      have hqv : (q : Int) - offset = value := by
        have hm_one : m = 1 := by rw [← hmt, hm'1]; norm_num
        have h := hvalcast
        rw [hr0, hm_one] at h
        push_cast at h
        omega
      rw [hqv]
    · have hb1 : 1 ≤ b := by omega
      have hbge : 2 ^ (b - 1) ≤ m' - 1 := Nat.lt_size.mp (by omega)
      have hpow : 2 ^ b = 2 * 2 ^ (b - 1) := by
        conv_lhs => rw [show b = (b - 1) + 1 by omega]
        rw [Nat.pow_succ]
        ring
      have hthr_cast : ((2 ^ b - m' : Nat) : Int) = 2 ^ b - m := by
        have hmle : m' ≤ 2 ^ b := by omega
        push_cast [hmle]
        rw [hmt]
      by_cases hcase : r < 2 ^ b - m'
      · -- short remainder: b - 1 bits, below the threshold
        rw [if_pos hcase]
        simp only [List.append_assoc, List.singleton_append, List.cons_append, List.nil_append]
        rw [countZeros_replicate q (natBits r (b - 1) ++ rest), except_ok_bind]
        simp only [hmm1, ← hm', ← hb', hb0, if_false, ite_false]
        rw [read_i32_bits_natBits (b - 1) r rest (by omega), except_ok_bind]
        rw [if_pos (by rw [← hthr_cast]; exact_mod_cast hcase)]
        rw [hvalcast]
      · -- long remainder: r + threshold in b bits
        rw [if_neg hcase]
        set x : Nat := r + (2 ^ b - m') with hx'
        have hxlt : x < 2 ^ b := by omega
        have hxge : 2 ^ b - m' ≤ x / 2 := by
          rw [Nat.le_div_iff_mul_le (by norm_num)]
          omega
        simp only [List.append_assoc, List.singleton_append, List.cons_append, List.nil_append]
        rw [countZeros_replicate q (natBits x b ++ rest), except_ok_bind]
        simp only [hmm1, ← hm', ← hb', hb0, if_false, ite_false]
        rw [show natBits x b = natBits (x / 2) (b - 1) ++ [decide (x % 2 = 1)] by
          conv_lhs => rw [show b = (b - 1) + 1 by omega]
          rfl]
        rw [List.append_assoc]
        rw [read_i32_bits_natBits (b - 1) (x / 2) _ (by omega), except_ok_bind]
        rw [if_neg (by
          rw [← hthr_cast]
          push_cast
          omega)]
        rw [show readBit ([decide (x % 2 = 1)] ++ rest) =
          .ok (if decide (x % 2 = 1) then 1 else 0, rest) from rfl,
          except_ok_bind]
        have hbit : (((if decide (x % 2 = 1) then 1 else 0 : Nat) : Nat) : Int) =
            ((x % 2 : Nat) : Int) := by
          by_cases h : x % 2 = 1 <;> simp [h] <;> omega
        have hfin : (q : Int) * m +
            (2 * ((x / 2 : Nat) : Int) +
              ((if decide (x % 2 = 1) then 1 else 0 : Nat) : Int)) -
            ((2 : Int) ^ b - m) - offset = value := by
          rw [hbit]
          have hx2 : 2 * ((x / 2 : Nat) : Int) + ((x % 2 : Nat) : Int) =
              (x : Int) := by
            have h := Nat.div_add_mod x 2
            push_cast
            omega
          rw [hx2]
          have hxr : (x : Int) - ((2 : Int) ^ b - m) = (r : Int) := by
            rw [← hthr_cast]
            push_cast
            omega
          calc (q : Int) * m + (x : Int) - ((2 : Int) ^ b - m) - offset
              = (q : Int) * m + ((x : Int) - ((2 : Int) ^ b - m)) - offset := by
                ring
            _ = (q : Int) * m + (r : Int) - offset := by rw [hxr]
            _ = value := hvalcast
        rw [← hfin]

/-- C5 witness: `Golomb(offset = 0, m = 5)` encodes the value 11 as the bits
`00 1 01` and decodes them back to 11 (`q = 2`, `b = 3`, `threshold = 3`,
`r = 1 < 3`). -/
theorem golomb_encode_layout_decode_inverts_witness :
    golombEncode 0 5 11 = .ok [false, false, true, false, true] ∧
    golombDecode 0 5 [false, false, true, false, true] = .ok (11, []) := by
  have h := golomb_encode_layout_decode_inverts 0 5 11 []
    (by decide) (by decide) (by decide) (by decide) (by decide) (by decide)
  have h1 : golombClaimBits (5 : Int).toNat ((11 + 0 : Int)).toNat =
      [false, false, true, false, true] := by
    show golombClaimBits 5 11 = [false, false, true, false, true]
    have hlog : Nat.log 2 5 = 2 :=
      Nat.log_eq_of_pow_le_of_lt_pow (by norm_num) (by norm_num)
    simp only [golombClaimBits, hlog]
    decide
  constructor
  · rw [← h1]
    exact h.1
  · have h2 := h.2
    rw [h1] at h2
    simpa using h2

end Noodles





